import Mathlib

/-!
Shallow embedding of the heading-detection / section-segmentation /
relevance-ranking pipeline of the repository (src/1a/main.py,
src/1b/src/outline_extractor.py, src/1b/src/section_extractor.py,
src/1b/src/main.py, src/1b/src/ranker.py).

Python floats are modelled as rationals, Python strings as Lean strings
restricted to the behaviour of code points (Python `len`, slicing and
iteration are by code point, which matches `String.data`).  External
collaborators (PyMuPDF text extraction, the sentence-transformer
embedding model, BM25, the optional cross-encoder, `math.log`) are
modelled as abstract parameters, mirroring the spec's "external
interfaces" section.  Fallible code paths (Python exceptions such as
IndexError / ValueError) are modelled with `Option`, `none` standing
for a raised exception.
-/

namespace Adobe

/-! ## Basic Python string primitives -/

/-- Python `\s` on ASCII text: space, tab, newline, carriage return,
vertical tab, form feed. -/
def pyIsSpace (c : Char) : Bool :=
  c = ' ' || c = '\t' || c = '\n' || c = '\x0d' || c = '\x0b' || c = '\x0c'

def pyIsDigit (c : Char) : Bool := '0' ≤ c && c ≤ '9'

def pyIsAlpha (c : Char) : Bool :=
  ('a' ≤ c && c ≤ 'z') || ('A' ≤ c && c ≤ 'Z')

def pyIsLowerAlpha (c : Char) : Bool := 'a' ≤ c && c ≤ 'z'

def pyIsUpperAlpha (c : Char) : Bool := 'A' ≤ c && c ≤ 'Z'

def pyIsAlnum (c : Char) : Bool := pyIsAlpha c || pyIsDigit c

/-- Python `\w` (ASCII part): letter, digit or underscore. -/
def pyIsWord (c : Char) : Bool := pyIsAlnum c || c = '_'

def pyToLower (c : Char) : Char :=
  if pyIsUpperAlpha c then Char.ofNat (c.toNat + 32) else c

/-- Python `str.lower()` (ASCII case mapping). -/
def pyLower (s : String) : String := String.mk (s.data.map pyToLower)

/-- Python `str.strip()` on a char list. -/
def stripChars (l : List Char) : List Char :=
  ((l.dropWhile pyIsSpace).reverse.dropWhile pyIsSpace).reverse

/-- Python `str.strip()`. -/
def pyStrip (s : String) : String := String.mk (stripChars s.data)

/-- `needle` occurs as a prefix of `hay` (chars). -/
def hasPre : List Char → List Char → Bool
  | [], _ => true
  | _ :: _, [] => false
  | n :: ns, h :: hs => n = h && hasPre ns hs

/-- Python `needle in hay` for strings: substring occurrence. -/
def hasSubAux (needle : List Char) : List Char → Bool
  | [] => hasPre needle []
  | h :: hs => hasPre needle (h :: hs) || hasSubAux needle hs

def strHasSub (hay needle : String) : Bool := hasSubAux needle.data hay.data

/-- Python `str.split()` (split on whitespace runs, dropping empties):
the list of maximal non-whitespace runs. -/
def wordsAux : List Char → List Char → List (List Char)
  | [], [] => []
  | [], cur => [cur.reverse]
  | c :: cs, cur =>
    if pyIsSpace c then
      (if cur.isEmpty then wordsAux cs [] else cur.reverse :: wordsAux cs [])
    else wordsAux cs (c :: cur)

def pySplitWs (s : String) : List String :=
  (wordsAux s.data []).map String.mk

/-- Python `" ".join(l)`. -/
def joinSpace (l : List String) : String := String.intercalate " " l

def countAlpha (s : String) : Nat := (s.data.filter pyIsAlpha).length

/-- Python `str.isupper()` (ASCII): at least one uppercase cased char and
no lowercase chars. -/
def pyIsUpper (s : String) : Bool :=
  s.data.any pyIsUpperAlpha && s.data.all (fun c => !pyIsLowerAlpha c)

/-- First maximum of a list under a strict "greater" test: Python
`max(l, key=...)`, which keeps the earliest maximal element. -/
def maxByFirst (gt : α → α → Bool) : List α → Option α
  | [] => none
  | x :: xs => some (xs.foldl (fun b y => if gt y b then y else b) x)

/-- Python `max` of a nonempty rational list. -/
def listMax : List ℚ → Option ℚ
  | [] => none
  | x :: xs => some (xs.foldl max x)

/-- First minimum (index and element) of a list under a key: Python
`min(range(len(l)), key=...)`; ties resolve to the earliest element. -/
def argminFirst (f : α → ℚ) : List α → Option (ℕ × α)
  | [] => none
  | x :: xs =>
    match argminFirst f xs with
    | none => some (0, x)
    | some (j, y) => if f x ≤ f y then some (0, x) else some (j + 1, y)

/-- Helper for `dedupFirst`: drop elements already seen. -/
def dedupFirstAux [DecidableEq α] (seen : List α) : List α → List α
  | [] => []
  | x :: xs => if x ∈ seen then dedupFirstAux seen xs else x :: dedupFirstAux (x :: seen) xs

/-- Insertion-order deduplication (the order in which elements enter a
Python `set`; CPython's real iteration order is hash-dependent, the
insertion order is the canonical deterministic model of it). -/
def dedupFirst [DecidableEq α] (l : List α) : List α := dedupFirstAux [] l

/-- Number of occurrences of `x` in `l`. -/
def pyCount [DecidableEq α] (l : List α) (x : α) : ℕ :=
  (l.filter (fun y => y = x)).length

/-- `Counter(l).most_common(1)`: the first-inserted value with maximal
multiplicity in `l`. -/
def mostCommonFirst [DecidableEq α] (l : List α) : Option α :=
  maxByFirst (fun x y => pyCount l x > pyCount l y) (dedupFirst l)

/-! ## src/1b/src/main.py: deduplication of sections -/

/-- The section record produced by the pipeline (a Python dict; keys
that a given stage may not have set are `Option`al, `none` modelling an
absent key). -/
structure Section where
  title : String
  text : String
  page_number : ℤ
  level : Option String := none
  document : Option String := none
  score : Option ℚ := none
  ce : Option ℚ := none
  mmr : Option ℚ := none
  snippet : Option String := none
deriving DecidableEq

/-- `_normalize_text_for_hash`: lowercase, map non-alphanumerics to
spaces, keep whitespace-split tokens of length ≥ 3. -/
def normalizeTextForHash (text : String) : List String :=
  let lowered := (pyLower text).data
  let cleaned := lowered.map (fun c => if pyIsLowerAlpha c || pyIsDigit c || pyIsSpace c then c else ' ')
  (pySplitWs (String.mk cleaned)).filter (fun t => t.length ≥ 3)

/-- Cardinality of the intersection of two sets represented as
duplicate-free lists. -/
def setCardInter (a b : List String) : ℕ := (a.filter (· ∈ b)).length

/-- Cardinality of the union of two sets represented as duplicate-free
lists. -/
def setCardUnion (a b : List String) : ℕ := (dedupFirst (a ++ b)).length

/-- `_jaccard` on token sets (sets modelled as duplicate-free lists;
only cardinalities and emptiness are used, so the representation order
is irrelevant). -/
def jaccard (a b : List String) : ℚ :=
  if a = [] ∧ b = [] then 1
  else if a = [] ∨ b = [] then 0
  else (setCardInter a b : ℚ) / ((max 1 (setCardUnion a b) : ℕ) : ℚ)

/-- `_section_quality`. -/
def sectionQuality (s : Section) : ℚ :=
  let length : ℚ := s.text.length
  let levelScore : ℚ :=
    if s.level.getD "H3" = "H1" then 1 else if s.level.getD "H3" = "H2" then 0.8 else 0.6
  let earlyPageBonus : ℚ := 1 / (max 1 s.page_number : ℤ)
  levelScore * 0.5 + min length 4000 / 4000 * 0.4 + earlyPageBonus * 0.1

/-- Token set of a section used by the deduplicator (`set(...)` in
Python, modelled as a first-occurrence deduplicated list). -/
def sectionTokens (s : Section) : List String :=
  dedupFirst (normalizeTextForHash s.text)

/-- Remove by value the first occurrence in a list (Python
`list.remove`). -/
def removeFirst [DecidableEq α] : List α → α → List α
  | [], _ => []
  | x :: xs, a => if x = a then xs else x :: removeFirst xs a

/-- Inner loop of `deduplicate_sections`: first kept entry whose token
set is Jaccard-similar to the incoming one. -/
def findDup (t : ℚ) (e : Section × List String) :
    List (Section × List String) → Option (Section × List String)
  | [] => none
  | k :: ks => if jaccard e.2 k.2 ≥ t then some k else findDup t e ks

/-- One step of `deduplicate_sections`' outer loop. -/
def dedupStep (t : ℚ) (kept : List (Section × List String))
    (e : Section × List String) : List (Section × List String) :=
  match findDup t e kept with
  | none => kept ++ [e]
  | some k =>
    if sectionQuality e.1 > sectionQuality k.1 then removeFirst kept k ++ [e] else kept

/-- `deduplicate_sections` (threshold default 0.85 at the Python level;
the pipeline calls it with 0.82). -/
def deduplicateSections (sections : List Section) (threshold : ℚ) : List Section :=
  let entries := sections.map (fun s => (s, sectionTokens s))
  (entries.foldl (dedupStep threshold) []).map (·.1)

end Adobe

namespace Adobe

/-- Unfolding of `deduplicate_sections` on a two-element list. -/
lemma dedup_pair (A B : Section) (t : ℚ) :
    deduplicateSections [A, B] t =
      if jaccard (sectionTokens B) (sectionTokens A) ≥ t then
        (if sectionQuality B > sectionQuality A then [B] else [A])
      else [A, B] := by
  by_cases hj : jaccard (sectionTokens B) (sectionTokens A) ≥ t
  · by_cases hq : sectionQuality B > sectionQuality A
    · simp [deduplicateSections, dedupStep, findDup, hj, hq, removeFirst]
    · simp [deduplicateSections, dedupStep, findDup, hj, hq]
  · simp [deduplicateSections, dedupStep, findDup, hj]

/-- Concrete scenario section with token set `travel, guide, europe`. -/
def c2secA : Section :=
  { title := "Europe Guide A", text := "Travel guide Europe!",
    page_number := 1, level := some "H2" }

/-- Concrete scenario section with token set `travel, guide, europe,
tips`; longer text and higher heading level, hence higher quality. -/
def c2secB : Section :=
  { title := "Europe Guide B", text := "travel guide europe tips",
    page_number := 1, level := some "H1" }

lemma c2_jaccard_val :
    jaccard (sectionTokens c2secB) (sectionTokens c2secA) = 3 / 4 := by
  have hB : sectionTokens c2secB = ["travel", "guide", "europe", "tips"] := by decide
  have hA : sectionTokens c2secA = ["travel", "guide", "europe"] := by decide
  rw [hB, hA]
  have hi : setCardInter ["travel", "guide", "europe", "tips"] ["travel", "guide", "europe"] = 3 := by
    decide
  have hu : setCardUnion ["travel", "guide", "europe", "tips"] ["travel", "guide", "europe"] = 4 := by
    decide
  simp [jaccard, hi, hu]

lemma c2_quality_lt : sectionQuality c2secA < sectionQuality c2secB := by
  have hA : sectionQuality c2secA = 251 / 500 := by
    simp [sectionQuality, c2secA, show ("Travel guide Europe!".length : ℕ) = 20 from rfl]
    norm_num
  have hB : sectionQuality c2secB = 753 / 1250 := by
    simp [sectionQuality, c2secB, show ("travel guide europe tips".length : ℕ) = 24 from rfl]
    norm_num
  rw [hA, hB]
  norm_num

/-- C2: two-element deduplication keeps exactly the higher-quality
section when the Jaccard similarity reaches the threshold, keeps both
otherwise; instantiated by the travel/guide/europe(/tips) scenario,
where Jaccard is 3/4, threshold 0.82 keeps both and threshold 0.70
keeps exactly the higher-quality (longer, higher-level) section. -/
theorem spec_c2 :
    (∀ (A B : Section) (t : ℚ),
      (jaccard (sectionTokens B) (sectionTokens A) ≥ t →
        deduplicateSections [A, B] t =
          [if sectionQuality B > sectionQuality A then B else A]) ∧
      (jaccard (sectionTokens B) (sectionTokens A) < t →
        deduplicateSections [A, B] t = [A, B])) ∧
    jaccard (sectionTokens c2secB) (sectionTokens c2secA) = 3 / 4 ∧
    deduplicateSections [c2secA, c2secB] 0.82 = [c2secA, c2secB] ∧
    deduplicateSections [c2secA, c2secB] 0.70 = [c2secB] ∧
    sectionQuality c2secB > sectionQuality c2secA := by
  refine ⟨fun A B t => ⟨fun hj => ?_, fun hj => ?_⟩, c2_jaccard_val, ?_, ?_, c2_quality_lt⟩
  · rw [dedup_pair, if_pos hj]
    split <;> rfl
  · rw [dedup_pair, if_neg (not_le.mpr hj)]
  · rw [dedup_pair,
      if_neg (not_le.mpr (show jaccard (sectionTokens c2secB) (sectionTokens c2secA) < 0.82 by
        rw [c2_jaccard_val]; norm_num))]
  · rw [dedup_pair,
      if_pos (show jaccard (sectionTokens c2secB) (sectionTokens c2secA) ≥ 0.70 by
        rw [c2_jaccard_val]; norm_num),
      if_pos c2_quality_lt]

/-- Witness for C2 at the concrete scenario: discharges the
`jaccard ≥ threshold` hypothesis at threshold 0.70. -/
theorem spec_c2_witness :
    deduplicateSections [c2secA, c2secB] (7 / 10) =
      [if sectionQuality c2secB > sectionQuality c2secA then c2secB else c2secA] :=
  (spec_c2.1 c2secA c2secB (7 / 10)).1 (by rw [c2_jaccard_val]; norm_num)

/-- C10: two sections whose texts normalize to the empty token set are
treated as duplicates at every threshold ≤ 1: `_jaccard` returns 1 on
two empty sets and `deduplicate_sections` keeps exactly one of the
pair, regardless of their other fields. -/
theorem spec_c10 (A B : Section) (t : ℚ)
    (hA : normalizeTextForHash A.text = [])
    (hB : normalizeTextForHash B.text = [])
    (ht : t ≤ 1) :
    jaccard (sectionTokens B) (sectionTokens A) = 1 ∧
    deduplicateSections [A, B] t =
      [if sectionQuality B > sectionQuality A then B else A] := by
  have hsA : sectionTokens A = [] := by
    simp [sectionTokens, hA, dedupFirst, dedupFirstAux]
  have hsB : sectionTokens B = [] := by
    simp [sectionTokens, hB, dedupFirst, dedupFirstAux]
  have hj : jaccard (sectionTokens B) (sectionTokens A) = 1 := by
    simp [jaccard, hsA, hsB]
  refine ⟨hj, ?_⟩
  rw [dedup_pair, if_pos (by rw [hj]; exact ht)]
  split <;> rfl

/-- Concrete empty-token section: only short (< 3 chars) tokens. -/
def c10secA : Section :=
  { title := "Some Title", text := "ab x!", page_number := 3, level := some "H1" }

/-- Concrete empty-token section: empty text. -/
def c10secB : Section :=
  { title := "Wholly Different", text := "", page_number := 1, level := none,
    document := some "other.pdf" }

/-- Witness for C10 at two concrete empty-token sections and
threshold 1. -/
theorem spec_c10_witness :
    jaccard (sectionTokens c10secB) (sectionTokens c10secA) = 1 ∧
    deduplicateSections [c10secA, c10secB] 1 =
      [if sectionQuality c10secB > sectionQuality c10secA then c10secB
       else c10secA] :=
  spec_c10 c10secA c10secB 1 (by decide) (by decide) le_rfl

end Adobe

namespace Adobe

/-! ## Maximal-run decomposition (model of greedy character-class
regular expressions: a sub over a character class rewrites exactly the
maximal runs of that class) -/

/-- Helper for `runsByC`: accumulate the current run. -/
def runsAux (f : Char → ℕ) (cls : ℕ) (cur : List Char) : List Char → List (ℕ × List Char)
  | [] => [(cls, cur.reverse)]
  | c :: cs =>
    if f c = cls then runsAux f cls (c :: cur) cs
    else (cls, cur.reverse) :: runsAux f (f c) [c] cs

/-- Decompose a char list into maximal runs of equal classification. -/
def runsByC (f : Char → ℕ) : List Char → List (ℕ × List Char)
  | [] => []
  | c :: cs => runsAux f (f c) [c] cs

/-- Class map whitespace / digit / other. -/
def wsDigitClass (c : Char) : ℕ := if pyIsSpace c then 0 else if pyIsDigit c then 1 else 2

/-- Class map whitespace / other. -/
def wsClass (c : Char) : ℕ := if pyIsSpace c then 0 else 1

def countNl (l : List Char) : ℕ := (l.filter (· = '\n')).length

def beforeFirstNl (l : List Char) : List Char := l.takeWhile (· ≠ '\n')

def afterLastNl (l : List Char) : List Char := (l.reverse.takeWhile (· ≠ '\n')).reverse

/-! ## src/1b/src/section_extractor.py -/

/-- A heading dict.  `extract_outline` always fills `font_size`,
`bold`, `level` and `indent`; the defaults model `h.get(...)` lookups
on outlines built elsewhere. -/
structure Heading where
  title : String
  page_number : ℤ
  font_size : ℚ := 0
  bold : Bool := false
  level : Option String := none
  indent : Option ℚ := none
deriving DecidableEq

structure Outline where
  title : String
  headings : List Heading
deriving DecidableEq

/-- `re.sub(r"\n\s*\d+\s*\n", "\n", text)` over the whitespace / digit
/ other run decomposition: a match is a whitespace run containing a
newline, followed by a digit run, followed by a whitespace run
containing a newline; the match starts at the first newline of the
first run and greedily ends at the last newline of the second
whitespace run, and scanning resumes after the match. -/
def cleanSub1Runs : Option (List Char × Option (List Char)) → List (ℕ × List Char) → List Char
  | none, [] => []
  | some (r1, none), [] => r1
  | some (r1, some d), [] => r1 ++ d
  | none, (cls, r) :: rest =>
    if cls = 0 ∧ countNl r ≥ 1 then cleanSub1Runs (some (r, none)) rest
    else r ++ cleanSub1Runs none rest
  | some (r1, none), (cls, r) :: rest =>
    if cls = 1 then cleanSub1Runs (some (r1, some r)) rest
    else if cls = 0 ∧ countNl r ≥ 1 then r1 ++ cleanSub1Runs (some (r, none)) rest
    else r1 ++ r ++ cleanSub1Runs none rest
  | some (r1, some d), (cls, r) :: rest =>
    if cls = 0 ∧ countNl r ≥ 1 then
      beforeFirstNl r1 ++ '\n' :: (afterLastNl r ++ cleanSub1Runs none rest)
    else r1 ++ d ++ r ++ cleanSub1Runs none rest

def cleanSub1 (l : List Char) : List Char := cleanSub1Runs none (runsByC wsDigitClass l)

/-- One line fully matches `^\s*\d+\s*/\s*\d+\s*$`. -/
def isPagLine (l : List Char) : Bool :=
  let a := l.dropWhile pyIsSpace
  let d1 := a.takeWhile pyIsDigit
  let b := (a.dropWhile pyIsDigit).dropWhile pyIsSpace
  match b with
  | '/' :: c =>
    let c1 := c.dropWhile pyIsSpace
    let d2 := c1.takeWhile pyIsDigit
    decide (d1 ≠ []) && decide (d2 ≠ []) &&
      decide ((c1.dropWhile pyIsDigit).dropWhile pyIsSpace = [])
  | _ => false

/-- Split on newline characters, keeping empty segments. -/
def splitOnNlAux (cur : List Char) : List Char → List (List Char)
  | [] => [cur.reverse]
  | c :: cs => if c = '\n' then cur.reverse :: splitOnNlAux [] cs else splitOnNlAux (c :: cur) cs

def splitOnNl (l : List Char) : List (List Char) := splitOnNlAux [] l

def joinNl (ls : List (List Char)) : List Char := (ls.intersperse ['\n']).flatten

/-- Python `str.splitlines()` restricted to `\n` line breaks. -/
def pySplitLines (l : List Char) : List (List Char) :=
  if l = [] then []
  else if l.getLast? = some '\n' then (splitOnNl l).dropLast
  else splitOnNl l

/-- `re.sub(r"\s{3,}", "  ", text)`: maximal whitespace runs of length
at least 3 become two spaces. -/
def subWs3 (l : List Char) : List Char :=
  ((runsByC wsClass l).map (fun r => if r.1 = 0 ∧ r.2.length ≥ 3 then [' ', ' '] else r.2)).flatten

/-- `re.sub(r"(\n\s*){3,}", "\n\n", text)`: a match is the part of a
maximal whitespace run from its first newline on, provided the run
contains at least three newlines; greedily it swallows the rest of the
run. -/
def subNl3 (l : List Char) : List Char :=
  ((runsByC wsClass l).map
    (fun r => if r.1 = 0 ∧ countNl r.2 ≥ 3 then beforeFirstNl r.2 ++ ['\n', '\n'] else r.2)).flatten

/-- `_clean_page_text`. -/
def cleanPageText (s : String) : String :=
  let l1 := cleanSub1 s.data
  let l2 := joinNl ((splitOnNl l1).map (fun line => if isPagLine line then [] else line))
  let stripped := (pySplitLines l2).map stripChars
  let kept := stripped.filter
    (fun ln => ¬(3 ≤ ln.length ∧ ln.length ≤ 60 ∧ stripped.count ln ≥ 3))
  let l3 := joinNl kept
  String.mk (stripChars (subNl3 (subWs3 l3)))

/-- Tail of `is_clean_title` (section_extractor variant) after the
fallible `title[3]` lookup. -/
def cleanTitleSeRest (t : String) : Bool :=
  if (match t.data with | [c] => pyIsAlpha c | _ => false) then false
  else if countAlpha t < 2 then false
  else if decide (t.data ≠ []) && t.data.all (fun c => !pyIsAlpha c) then false
  else if matchListNum t then false
  else if t.data.getLast? = some '.' ∧ t.length < 8 then false
  else if (pySplitWs t).length ≤ 1 ∧ t.length < 6 then false
  else true
where
  /-- `re.match(r"^[o•]\s+\d+", title)` -/
  matchListNum (t : String) : Bool :=
    match t.data with
    | c :: rest =>
      (c = 'o' || c = '•') &&
        decide (rest.takeWhile pyIsSpace ≠ []) &&
        decide ((rest.dropWhile pyIsSpace).takeWhile pyIsDigit ≠ [])
    | [] => false

def startsWithAnyChar (t : String) (cs : List Char) : Bool :=
  match t.data with
  | c :: _ => c ∈ cs
  | [] => false

/-- `is_clean_title` (section_extractor variant).  `none` models the
`IndexError` raised by `title[3]` when the stripped title is exactly
three digits. -/
def isCleanTitleSe (title : String) : Option Bool :=
  let t := pyStrip title
  if t = "" ∨ t.length < 3 then some false
  else if pyLower t ∈ ["page", "page 1", "table of contents", "contents", "index",
      "click here", "introduction"] then some false
  else if startsWithAnyChar t ['•', '-', '*', '(', '[', '#'] then some false
  else if (t.data.take 3).all pyIsDigit then
    match t.data.get? 3 with
    | none => none
    | some c4 => if c4 ∈ ['.', '-', ' '] then some false else some (cleanTitleSeRest t)
  else some (cleanTitleSeRest t)

/-- Heading order used by the segmenter:
`sorted(headings, key=lambda h: (h["page_number"], -h.get("font_size", 0)))`. -/
def headingLe (a b : Heading) : Prop :=
  a.page_number < b.page_number ∨ (a.page_number = b.page_number ∧ b.font_size ≤ a.font_size)

instance : DecidableRel headingLe := fun a b => by unfold headingLe; infer_instance

/-- Python list indexing with negative-index wrap-around; `none` models
`IndexError`. -/
def pyListGet (l : List String) (i : ℤ) : Option String :=
  if 0 ≤ i then l.get? i.toNat
  else if 0 ≤ i + l.length then l.get? (i + l.length).toNat
  else none

/-- Python `range(a, b)` over integers. -/
def intRange (a b : ℤ) : List ℤ := (List.range (b - a).toNat).map (fun k => a + k)

/-- `mapM` in the `Option` monad, written recursively so that it both
computes and supports induction. -/
def mapMO (f : α → Option β) : List α → Option (List β)
  | [] => some []
  | x :: xs =>
    match f x with
    | none => none
    | some y =>
      match mapMO f xs with
      | none => none
      | some ys => some (y :: ys)

/-- `3 if heading.get("level") == "H1" else 2 if ... else 2`. -/
def maxSpan (h : Heading) : ℤ := if h.level = some "H1" then 3 else 2

/-- Body of the per-heading loop of `extract_sections`.  Outer `none`
models a raised exception; inner `none` models `continue` on an
unclean title. -/
def sectionFor (doc : List String) (hs : List Heading) (idx : ℕ) (h : Heading) :
    Option (Option Section) :=
  match isCleanTitleSe h.title with
  | none => none
  | some false => some none
  | some true =>
    let startPage := h.page_number - 1
    let nextPage : ℤ :=
      match hs.get? (idx + 1) with
      | some h2 => h2.page_number - 1
      | none => (doc.length : ℤ)
    let tentativeEnd := min (doc.length : ℤ) (startPage + maxSpan h)
    let endPage := min nextPage tentativeEnd
    match mapMO (pyListGet doc) (intRange startPage endPage) with
    | none => none
    | some pageTexts =>
      let sectionText := String.join pageTexts
      let withFallback : Option String :=
        if pyStrip sectionText = "" then pyListGet doc startPage else some sectionText
      match withFallback with
      | none => none
      | some st =>
        let cleaned := cleanPageText st
        let truncated :=
          if cleaned.length > 5000 then String.mk (cleaned.data.take 5000) else cleaned
        some (some { title := h.title, text := pyStrip truncated,
                     page_number := h.page_number, level := some (h.level.getD "H3") })

/-- `extract_sections`; pages of the PDF are modelled by their
`get_text()` strings. -/
def extractSections (doc : List String) (outline : Outline) : Option (List Section) :=
  if outline.headings.isEmpty then
    some [{ title := if outline.title = "" then "Document" else outline.title,
            text := String.join (doc.take 3),
            page_number := 1 }]
  else
    (mapMO (fun p => sectionFor doc (List.insertionSort headingLe outline.headings) p.1 p.2)
      (List.insertionSort headingLe outline.headings).enum).map (fun l => l.filterMap id)

end Adobe

namespace Adobe

lemma dropWhile_len_le (p : Char → Bool) (l : List Char) :
    (l.dropWhile p).length ≤ l.length := by
  induction l with
  | nil => simp
  | cons c cs ih =>
    by_cases hc : p c
    · rw [List.dropWhile_cons_of_pos hc]
      exact le_trans ih (Nat.le_succ _)
    · rw [List.dropWhile_cons_of_neg hc]

lemma stripChars_length_le (l : List Char) : (stripChars l).length ≤ l.length := by
  unfold stripChars
  calc (((l.dropWhile pyIsSpace).reverse.dropWhile pyIsSpace).reverse).length
      = ((l.dropWhile pyIsSpace).reverse.dropWhile pyIsSpace).length := by
        rw [List.length_reverse]
    _ ≤ (l.dropWhile pyIsSpace).reverse.length := dropWhile_len_le _ _
    _ = (l.dropWhile pyIsSpace).length := by rw [List.length_reverse]
    _ ≤ l.length := dropWhile_len_le _ _

lemma pyStrip_length_le (s : String) : (pyStrip s).length ≤ s.length :=
  stripChars_length_le s.data

lemma mapMO_mem {f : α → Option β} :
    ∀ {l : List α} {ys : List β}, mapMO f l = some ys →
      ∀ y ∈ ys, ∃ x ∈ l, f x = some y := by
  intro l
  induction l with
  | nil =>
    intro ys h y hy
    simp only [mapMO, Option.some.injEq] at h
    subst h
    simp at hy
  | cons x xs ih =>
    intro ys h y hy
    simp only [mapMO] at h
    cases hfx : f x with
    | none => rw [hfx] at h; exact absurd h (by simp)
    | some y0 =>
      rw [hfx] at h
      cases hrest : mapMO f xs with
      | none => rw [hrest] at h; exact absurd h (by simp)
      | some ys0 =>
        rw [hrest] at h
        simp only [Option.some.injEq] at h
        subst h
        rcases List.mem_cons.mp hy with rfl | hmem
        · exact ⟨x, List.mem_cons_self _ _, hfx⟩
        · obtain ⟨x', hx', hfx'⟩ := ih hrest y hmem
          exact ⟨x', List.mem_cons_of_mem _ hx', hfx'⟩

lemma truncated_strip_le (c : String) :
    (pyStrip (if c.length > 5000 then String.mk (c.data.take 5000) else c)).length ≤ 5000 := by
  by_cases hc : c.length > 5000
  · rw [if_pos hc]
    refine le_trans (pyStrip_length_le _) ?_
    show (c.data.take 5000).length ≤ 5000
    simp [List.length_take]
  · rw [if_neg hc]
    exact le_trans (pyStrip_length_le _) (not_lt.mp hc)

/-- Any section emitted by the per-heading loop has text at most 5000
characters: the text is `section_text[:5000].strip()`. -/
lemma sectionFor_text_le {doc : List String} {hs : List Heading} {idx : ℕ}
    {h : Heading} {s : Section}
    (hsf : sectionFor doc hs idx h = some (some s)) : s.text.length ≤ 5000 := by
  unfold sectionFor at hsf
  cases hct : isCleanTitleSe h.title with
  | none => rw [hct] at hsf; exact absurd hsf (by simp)
  | some b =>
    rw [hct] at hsf
    cases b with
    | false => exact absurd hsf (by simp)
    | true =>
      simp only at hsf
      cases hmap : mapMO (pyListGet doc) _ with
      | none => rw [hmap] at hsf; exact absurd hsf (by simp)
      | some pageTexts =>
        rw [hmap] at hsf
        simp only at hsf
        split at hsf
        · exact absurd hsf (by simp)
        · simp only [Option.some.injEq] at hsf
          subst hsf
          exact truncated_strip_le _

/-- C3 (amended): every section produced by the per-heading branch of
`extract_sections` has text of length at most 5000; the empty-heading
fallback branch (see `spec_c3_counterexample`) does not truncate. -/
theorem spec_c3 (doc : List String) (outline : Outline) (out : List Section)
    (hne : outline.headings ≠ [])
    (hex : extractSections doc outline = some out) :
    ∀ s ∈ out, s.text.length ≤ 5000 := by
  intro s hs
  unfold extractSections at hex
  rw [if_neg (by simpa using hne)] at hex
  cases hmap : mapMO (fun p => sectionFor doc (List.insertionSort headingLe outline.headings) p.1 p.2)
      (List.insertionSort headingLe outline.headings).enum with
  | none => rw [hmap] at hex; exact absurd hex (by simp)
  | some l =>
    rw [hmap] at hex
    simp only [Option.map_some', Option.some.injEq] at hex
    subst hex
    obtain ⟨o, ho, hid⟩ := List.mem_filterMap.mp hs
    obtain ⟨⟨i, hh⟩, _, hsf⟩ := mapMO_mem hmap o ho
    cases o with
    | none => simp at hid
    | some s' =>
      simp only [id] at hid
      obtain rfl := Option.some.inj hid
      exact sectionFor_text_le hsf

/-- A 5001-character page. -/
def c3pageBig : String := String.mk (List.replicate 5001 'a')

/-- Shared unfolding of the empty-headings fallback branch of
`extract_sections`. -/
lemma extractSections_empty (doc : List String) (outline : Outline)
    (h : outline.headings = []) :
    extractSections doc outline =
      some [{ title := if outline.title = "" then "Document" else outline.title,
              text := String.join (doc.take 3), page_number := 1 }] := by
  simp [extractSections, h]

/-- Counterexample to C3 as stated: with an empty heading list the
fallback section's text is the raw concatenation of the first three
pages and is not truncated to 5000 characters. -/
theorem spec_c3_counterexample :
    (extractSections [c3pageBig] { title := "T", headings := [] }).map
      (fun l => l.map (fun s => s.text.length)) = some [5001] := by
  rw [extractSections_empty _ _ rfl]
  have hjoin : String.join ([c3pageBig].take 3) = c3pageBig := by
    simp [String.join]
  have hlen : c3pageBig.length = 5001 := by
    have h1 : c3pageBig.length = (List.replicate 5001 'a').length := rfl
    rw [List.length_replicate] at h1
    exact h1
  simp only [Option.map_some', List.map_cons, List.map_nil, hjoin, hlen]

/-- Concrete heading for the C3 witness. -/
def hW3 : Heading :=
  { title := "Valid Title Here", page_number := 1, font_size := 12,
    bold := false, level := some "H2" }

def docW3 : List String := ["Hello world page one. Content here."]

def secW3 : Section :=
  { title := "Valid Title Here", text := "Hello world page one. Content here.",
    page_number := 1, level := some "H2" }

/-- Witness for C3 (amended) at a concrete document and heading. -/
theorem spec_c3_witness :
    extractSections docW3 { title := "Doc", headings := [hW3] } = some [secW3] ∧
    secW3.text.length ≤ 5000 :=
  ⟨by decide,
   spec_c3 docW3 { title := "Doc", headings := [hW3] } [secW3] (by decide) (by decide)
     secW3 (by simp)⟩

/-- C8: with an empty heading list, `extract_sections` returns exactly
one section, titled from the outline title (or "Document" when that is
empty), with page number 1 and text the concatenation of (at most) the
first three pages. -/
theorem spec_c8 (doc : List String) (outline : Outline)
    (h : outline.headings = []) :
    extractSections doc outline =
      some [{ title := if outline.title = "" then "Document" else outline.title,
              text := String.join (doc.take 3), page_number := 1 }] :=
  extractSections_empty doc outline h

/-- Witness for C8 on a four-page document with an empty outline
title. -/
theorem spec_c8_witness :
    extractSections ["p1 x", "p2 y", "p3 z", "p4 w"] { title := "", headings := [] } =
      some [{ title := "Document", text := "p1 xp2 yp3 z", page_number := 1 }] := by
  rw [spec_c8 ["p1 x", "p2 y", "p3 z", "p4 w"] { title := "", headings := [] } rfl]
  decide

end Adobe

namespace Adobe

/-! ## src/1b/src/outline_extractor.py -/

/-- A text span as delivered by the text-layout collaborator
(`page.get_text("dict")`): text, font size, flags (bit 4 = bold), and
the bounding box coordinates the code reads (`bbox[0]`, `bbox[1]`,
`bbox[3]`). -/
structure Span where
  text : String
  size : ℚ
  flags : ℕ := 0
  x0 : ℚ := 0
  y0 : ℚ := 0
  y1 : ℚ := 0
deriving DecidableEq

/-- A page: blocks (each either a list of lines of spans, or `none`
for a block without a "lines" key), page height, and the raw
`get_text()` string. -/
structure Page where
  blocks : List (Option (List (List Span)))
  height : ℚ := 800
  text : String := ""
deriving DecidableEq

def blockSpans (ls : List (List Span)) : List Span := ls.flatten

def spansText (spans : List Span) : String := String.join (spans.map (·.text))

def spansMaxSize (spans : List Span) : ℚ := spans.foldl (fun m sp => max m sp.size) 0

def spansBold (spans : List Span) : Bool := spans.any (fun sp => sp.flags &&& 16 != 0)

/-- Minimum over a fold started at `float('inf')`; `none` is the
untouched infinity. -/
def foldMinQ (vals : List ℚ) : Option ℚ :=
  vals.foldl (fun m v => match m with | none => some v | some w => some (min w v)) none

def spansMinIndent (spans : List Span) : Option ℚ := foldMinQ (spans.map (·.x0))

def spansMinY (spans : List Span) : Option ℚ := foldMinQ (spans.map (·.y0))

def spansMaxY (spans : List Span) : ℚ := spans.foldl (fun m sp => max m sp.y1) 0

/-- `m < c` where `none` is `float('inf')` (so never below a bound). -/
def qinfLt (m : Option ℚ) (c : ℚ) : Bool :=
  match m with
  | none => false
  | some v => decide (v < c)

/-- A first-page title candidate. -/
structure TitleCand where
  text : String
  size : ℚ
  bold : Bool
  pos : Option ℚ
deriving DecidableEq

/-- `-pos a > -pos b` for positions where `none` is `float('inf')`. -/
def posNegGt (a b : Option ℚ) : Bool :=
  match a, b with
  | none, _ => false
  | some _, none => true
  | some v, some w => decide (v < w)

/-- Strict comparison of `(bold, size, -position)` keys, as used by
`max(title_candidates, key=...)`. -/
def titleCandGt (a b : TitleCand) : Bool :=
  (a.bold && !b.bold) ||
  ((a.bold == b.bold) &&
    (decide (b.size < a.size) || (decide (a.size = b.size) && posNegGt a.pos b.pos)))

def pageTitleCands (p : Page) : List TitleCand :=
  p.blocks.filterMap (fun b =>
    match b with
    | none => none
    | some ls =>
      let spans := blockSpans ls
      let t := pyStrip (spansText spans)
      if 10 < t.length ∧ t.length < 200 then
        some { text := t, size := spansMaxSize spans, bold := spansBold spans,
               pos := spansMinY spans }
      else none)

/-- Title selection on the first page: largest, boldest, topmost block
(first maximum of the `(bold, size, -position)` key). -/
def titleOf (p : Page) : String :=
  match maxByFirst titleCandGt (pageTitleCands p) with
  | none => ""
  | some best => best.text

/-- All span font sizes of the first two pages, in document order. -/
def docSpanSizes (doc : List Page) : List ℚ :=
  (((doc.take 2).map (fun p =>
    (p.blocks.filterMap id).map (fun ls => (blockSpans ls).map (·.size)))).flatten).flatten

/-- Round half to even at integer precision (Python `round` on exact
values; the binary-float artifacts of CPython rounding are outside the
model). -/
def roundHalfEven (x : ℚ) : ℤ :=
  if x - ⌊x⌋ < 1 / 2 then ⌊x⌋
  else if x - ⌊x⌋ > 1 / 2 then ⌊x⌋ + 1
  else if ⌊x⌋ % 2 = 0 then ⌊x⌋ else ⌊x⌋ + 1

/-- Python `round(s, 1)`. -/
def round1 (q : ℚ) : ℚ := (roundHalfEven (q * 10) : ℚ) / 10

/-- Body font size as the code computes it: the span sizes of the
first two pages are first collected into a `set` (deduplicated raw
sizes), each distinct raw size is rounded to one decimal, and the most
frequent rounded value wins (`Counter(...).most_common(1)`, ties to
the first-inserted value); 12.0 when no text was found. -/
def bodyFontSize (doc : List Page) : ℚ :=
  if docSpanSizes doc = [] then 12
  else (mostCommonFirst ((dedupFirst (docSpanSizes doc)).map round1)).getD 12

/-- Body font size as the claim words it: the mode by occurrence count
over the rounded sizes of all spans (the sample itself, not its set of
distinct values). -/
def specBodyFontSize (doc : List Page) : ℚ :=
  if docSpanSizes doc = [] then 12
  else (mostCommonFirst ((docSpanSizes doc).map round1)).getD 12

/-- `re.match(r"^\d+(\.|:)\s", text)`. -/
def matchNumbered (t : String) : Bool :=
  match t.data.takeWhile pyIsDigit, t.data.dropWhile pyIsDigit with
  | _ :: _, c :: c2 :: _ => (c = '.' || c = ':') && pyIsSpace c2
  | _, _ => false

/-- `get_level`. -/
def getLevel (B size : ℚ) (t : String) : String :=
  if size ≥ B + 2 then "H1"
  else if size ≥ B + 1 then "H2"
  else if matchNumbered t || pyIsUpper t then "H2"
  else "H3"

/-- Collapse whitespace runs to a single space
(`re.sub(r"\s+", " ", s)`). -/
def collapseWs (l : List Char) : List Char :=
  ((runsByC wsClass l).map (fun r => if r.1 = 0 then [' '] else r.2)).flatten

/-- Normalised heading title used for per-document deduplication:
strip one leading `^\s*[\dA-Za-z]+[\.:\)]\s+` numbering, then strip,
lowercase and collapse whitespace. -/
def normTitle (t : String) : String :=
  let l := t.data
  let l1 :=
    match (l.dropWhile pyIsSpace).takeWhile pyIsAlnum,
        (l.dropWhile pyIsSpace).dropWhile pyIsAlnum with
    | _ :: _, c :: rest =>
      if (c = '.' || c = ':' || c = ')') && decide (rest.takeWhile pyIsSpace ≠ []) then
        rest.dropWhile pyIsSpace
      else l
    | _, _ => l
  String.mk (collapseWs (pyLower (String.mk (stripChars l1))).data)

def headingPhrases : List String :=
  ["comprehensive guide", "ultimate guide", "complete guide", "journey through",
   "travel companion"]

/-- The heading test of `extract_outline` (size relative to body size,
boldness, uppercase, leading numbering, small indent). -/
def isHeadingB (B : ℚ) (t : String) (sz : ℚ) (bold : Bool) (indent : Option ℚ) : Bool :=
  (decide (sz ≥ B + 0.5) && decide (t.length < 90)) ||
  (bold && decide (sz ≥ B) && decide (t.length < 70)) ||
  (pyIsUpper t && decide (t.length < 50)) ||
  matchNumbered t ||
  (qinfLt indent 50 && decide (sz ≥ B) && decide (t.length < 80))

/-- One block of the heading-collection loop; the state is the pair of
seen normalised titles and headings collected so far. -/
def processBlock (B : ℚ) (pn : ℕ) (height : ℚ)
    (st : List String × List Heading) (b : Option (List (List Span))) :
    List String × List Heading :=
  match b with
  | none => st
  | some ls =>
    let spans := blockSpans ls
    let t := pyStrip (spansText spans)
    if t = "" ∨ t.length < 3 ∨ t.length > 150 then st
    else if startsWithAnyChar t ['•', '-', '*'] then st
    else if pyLower t ∈ ["introduction", "contents", "table of contents", "index"] then st
    else if countAlpha t < 2 then st
    else if t.length > 80 ∧ headingPhrases.any (fun ph => strHasSub (pyLower t) ph) then st
    else if qinfLt (spansMinY spans) 30 ∨ spansMaxY spans > height - 40 then st
    else if isHeadingB B t (spansMaxSize spans) (spansBold spans) (spansMinIndent spans) then
      (if normTitle t ∈ st.1 then st
       else (st.1 ++ [normTitle t],
             st.2 ++ [{ title := t, page_number := (pn : ℤ) + 1,
                        font_size := spansMaxSize spans, bold := spansBold spans,
                        level := some (getLevel B (spansMaxSize spans) t),
                        indent := spansMinIndent spans }]))
    else st

def processPage (B : ℚ) (st : List String × List Heading) (pp : ℕ × Page) :
    List String × List Heading :=
  pp.2.blocks.foldl (processBlock B pp.1 pp.2.height) st

/-- Heading collection over the first `min(10, len(doc))` pages. -/
def collectHeadings (B : ℚ) (doc : List Page) : List Heading :=
  ((doc.take 10).enum.foldl (processPage B) ([], [])).2

/-- `extract_outline` (1b variant); `none` models the `IndexError` of
`doc[0]` on an empty document. -/
def extractOutline (doc : List Page) : Option Outline :=
  match doc with
  | [] => none
  | p0 :: _ => some { title := titleOf p0, headings := collectHeadings (bodyFontSize doc) doc }

end Adobe

namespace Adobe

/-- The property C4 asserts of every emitted heading. -/
def GoodH (B : ℚ) (h : Heading) : Prop :=
  B ≤ h.font_size ∨ (pyIsUpper h.title = true ∧ h.title.length < 50) ∨
    matchNumbered h.title = true

lemma isHeadingB_good {B sz : ℚ} {t : String} {bold : Bool} {ind : Option ℚ}
    (h : isHeadingB B t sz bold ind = true) :
    B ≤ sz ∨ (pyIsUpper t = true ∧ t.length < 50) ∨ matchNumbered t = true := by
  simp only [isHeadingB, Bool.or_eq_true, Bool.and_eq_true, decide_eq_true_eq] at h
  rcases h with ((((⟨h1, h1b⟩ | ⟨⟨h2a, h2⟩, h2c⟩) | ⟨h3, h4⟩) | h5) | ⟨⟨hq, h6⟩, h6b⟩)
  · left; linarith
  · left; exact h2
  · right; left; exact ⟨h3, h4⟩
  · right; right; exact h5
  · left; exact h6

lemma processBlock_good {B : ℚ} {pn : ℕ} {ht : ℚ}
    {st : List String × List Heading} {b : Option (List (List Span))} :
    ∀ h ∈ (processBlock B pn ht st b).2, h ∈ st.2 ∨ GoodH B h := by
  intro h hm
  unfold processBlock at hm
  cases b with
  | none => exact Or.inl hm
  | some ls =>
    simp only at hm
    split_ifs at hm with h1 h2 h3 h4 h5 h6 h7 h8
    all_goals try exact Or.inl hm
    rcases List.mem_append.mp hm with hin | hnew
    · exact Or.inl hin
    · right
      have := List.mem_singleton.mp hnew
      subst this
      exact isHeadingB_good h7

lemma foldl_blocks_good {B : ℚ} {pn : ℕ} {ht : ℚ}
    (bs : List (Option (List (List Span)))) (st : List String × List Heading)
    (hst : ∀ h ∈ st.2, GoodH B h) :
    ∀ h ∈ (bs.foldl (processBlock B pn ht) st).2, GoodH B h := by
  induction bs generalizing st with
  | nil => exact hst
  | cons b bs ih =>
    intro h hm
    refine ih _ (fun h' hm' => ?_) h hm
    rcases processBlock_good h' hm' with hin | hg
    · exact hst h' hin
    · exact hg

lemma foldl_pages_good {B : ℚ} (ps : List (ℕ × Page)) (st : List String × List Heading)
    (hst : ∀ h ∈ st.2, GoodH B h) :
    ∀ h ∈ (ps.foldl (processPage B) st).2, GoodH B h := by
  induction ps generalizing st with
  | nil => exact hst
  | cons p ps ih =>
    intro h hm
    exact ih _ (fun h' hm' => foldl_blocks_good _ _ hst h' hm') h hm

/-- C4: every heading emitted by `extract_outline` has font size at
least the estimated body size, or is fully uppercase and shorter than
50 characters, or carries a leading `^\d+[.:]\s` numbering — every
disjunct of the block-level heading test implies one of these. -/
theorem spec_c4 (doc : List Page) (ol : Outline)
    (hex : extractOutline doc = some ol) :
    ∀ h ∈ ol.headings,
      bodyFontSize doc ≤ h.font_size ∨
      (pyIsUpper h.title = true ∧ h.title.length < 50) ∨
      matchNumbered h.title = true := by
  intro h hm
  cases doc with
  | nil => exact absurd hex (by simp [extractOutline])
  | cons p0 rest =>
    have hol : ol = ⟨titleOf p0,
        collectHeadings (bodyFontSize (p0 :: rest)) (p0 :: rest)⟩ := by
      simpa [extractOutline] using hex.symm
    subst hol
    have := foldl_pages_good (B := bodyFontSize (p0 :: rest))
      ((p0 :: rest).take 10).enum ([], []) (by intro h' hm'; simp at hm')
    exact this h hm

/-- Concrete bold span for the C4 witness. -/
def spanW4 : Span :=
  { text := "Heading One Example", size := 20, flags := 16, x0 := 100, y0 := 100, y1 := 110 }

def pageW4 : Page := { blocks := [some [[spanW4]]], height := 800 }

def docW4 : List Page := [pageW4]

/-- The heading `extract_outline` emits on `docW4`. -/
def hW4 : Heading :=
  { title := "Heading One Example", page_number := 1, font_size := 20,
    bold := true, level := some "H3", indent := some 100 }

lemma bodyFontSize_docW4 : bodyFontSize docW4 = 20 := by
  have hr : round1 20 = 20 := by norm_num [round1, roundHalfEven]
  simp [bodyFontSize, docSpanSizes, docW4, pageW4, spanW4, blockSpans,
    mostCommonFirst, maxByFirst, dedupFirst, dedupFirstAux, hr]

lemma collectHeadings_docW4 : collectHeadings 20 docW4 = [hW4] := by
  have ht : pyStrip (spansText (blockSpans [[spanW4]])) = "Heading One Example" := by decide
  have h2 : startsWithAnyChar "Heading One Example" ['•', '-', '*'] = false := by decide
  have h3 : pyLower "Heading One Example" = "heading one example" := by decide
  have h4 : countAlpha "Heading One Example" = 17 := by decide
  have h5 : pyIsUpper "Heading One Example" = false := by decide
  have h6 : matchNumbered "Heading One Example" = false := by decide
  have h7 : normTitle "Heading One Example" = "heading one example" := by decide
  have hlen : ("Heading One Example" : String).length = 19 := rfl
  have hy : spansMinY (blockSpans [[spanW4]]) = some 100 := by decide
  have hmaxy : spansMaxY (blockSpans [[spanW4]]) = 110 := by decide
  have hsz : spansMaxSize (blockSpans [[spanW4]]) = 20 := by decide
  have hbold : spansBold (blockSpans [[spanW4]]) = true := by decide
  have hind : spansMinIndent (blockSpans [[spanW4]]) = some 100 := by decide
  simp only [collectHeadings, docW4, pageW4, List.take, List.enum, List.enumFrom, List.foldl,
    processPage, processBlock, ht, h2, h3, h4, h5, h6, h7, hlen, hy, hmaxy, hsz, hbold, hind]
  norm_num [isHeadingB, qinfLt, getLevel, hW4, h5, h6, hlen]
  decide

/-- Witness for C4 on a one-page document with a single bold span at
exactly the body font size. -/
theorem spec_c4_witness :
    extractOutline docW4 = some ⟨"Heading One Example", [hW4]⟩ ∧
    (bodyFontSize docW4 ≤ hW4.font_size ∨
      (pyIsUpper hW4.title = true ∧ hW4.title.length < 50) ∨
      matchNumbered hW4.title = true) := by
  have ht : titleOf pageW4 = "Heading One Example" := by decide
  have hstep : extractOutline docW4 =
      some ⟨titleOf pageW4, collectHeadings (bodyFontSize docW4) docW4⟩ := rfl
  have hex : extractOutline docW4 = some ⟨"Heading One Example", [hW4]⟩ := by
    rw [hstep, ht, bodyFontSize_docW4, collectHeadings_docW4]
  exact ⟨hex, spec_c4 docW4 ⟨"Heading One Example", [hW4]⟩ hex hW4 (by simp)⟩

lemma dedupFirstAux_of_nodup [DecidableEq α] :
    ∀ (l : List α) (seen : List α), l.Nodup → (∀ x ∈ l, x ∉ seen) →
      dedupFirstAux seen l = l := by
  intro l
  induction l with
  | nil => intro seen _ _; rfl
  | cons x xs ih =>
    intro seen hnd hni
    simp only [dedupFirstAux]
    rw [if_neg (hni x (List.mem_cons_self _ _))]
    congr 1
    refine ih (x :: seen) (List.nodup_cons.mp hnd).2 (fun y hy hmem => ?_)
    rcases List.mem_cons.mp hmem with rfl | hseen
    · exact (List.nodup_cons.mp hnd).1 hy
    · exact hni y (List.mem_cons_of_mem _ hy) hseen

lemma dedupFirst_of_nodup [DecidableEq α] {l : List α} (h : l.Nodup) :
    dedupFirst l = l :=
  dedupFirstAux_of_nodup l [] h (by simp)

/-- C5 (amended): the body font size defaults to 12 when no span was
sampled, and agrees with the claim's span-multiset mode whenever the
sampled raw sizes are pairwise distinct; in general the code takes the
mode over the *set* of distinct raw sizes, not over the span sample
(see `spec_c5_counterexample`). -/
theorem spec_c5 :
    (∀ doc : List Page, docSpanSizes doc = [] → bodyFontSize doc = 12) ∧
    (∀ doc : List Page, (docSpanSizes doc).Nodup →
      bodyFontSize doc = specBodyFontSize doc) := by
  constructor
  · intro doc h
    simp [bodyFontSize, h]
  · intro doc h
    by_cases he : docSpanSizes doc = []
    · simp [bodyFontSize, specBodyFontSize, he]
    · simp only [bodyFontSize, specBodyFontSize, if_neg he]
      rw [dedupFirst_of_nodup h]

/-- First two pages contain three spans of raw size 12 and one span
each of raw sizes 14 and 14.04 (both rounding to 14.0). -/
def docC5 : List Page :=
  [{ blocks := [some [[{ text := "a", size := 12 }, { text := "b", size := 12 },
      { text := "c", size := 12 }, { text := "d", size := 14 },
      { text := "e", size := 14.04 }]]] }]

lemma docC5_sizes : docSpanSizes docC5 = [12, 12, 12, 14, 14.04] := by
  simp [docSpanSizes, docC5, blockSpans]

lemma round1_12 : round1 12 = 12 := by norm_num [round1, roundHalfEven]

lemma round1_14 : round1 14 = 14 := by norm_num [round1, roundHalfEven]

lemma round1_1404 : round1 14.04 = 14 := by norm_num [round1, roundHalfEven]

/-- Counterexample to C5 as stated: the span-occurrence mode of the
sample `[12, 12, 12, 14, 14.04]` is 12, but the code deduplicates the
raw sizes first (`set`), leaving `[12, 14, 14.04]`, whose rounded
histogram `[12, 14, 14]` has mode 14. -/
theorem spec_c5_counterexample :
    bodyFontSize docC5 = 14 ∧ specBodyFontSize docC5 = 12 ∧
      bodyFontSize docC5 ≠ specBodyFontSize docC5 := by
  have hbody : bodyFontSize docC5 = 14 := by
    have hd : dedupFirst [(12:ℚ), 12, 12, 14, 14.04] = [12, 14, 14.04] := by
      norm_num [dedupFirst, dedupFirstAux]
    simp only [bodyFontSize, docC5_sizes, hd]
    rw [if_neg (by simp)]
    simp only [List.map, round1_12, round1_14, round1_1404]
    norm_num [mostCommonFirst, maxByFirst, dedupFirst, dedupFirstAux, pyCount, List.filter]
  have hspec : specBodyFontSize docC5 = 12 := by
    simp only [specBodyFontSize, docC5_sizes]
    rw [if_neg (by simp)]
    simp only [List.map, round1_12, round1_14, round1_1404]
    norm_num [mostCommonFirst, maxByFirst, dedupFirst, dedupFirstAux, pyCount, List.filter]
  refine ⟨hbody, hspec, ?_⟩
  rw [hbody, hspec]
  norm_num

/-- A page with no text at all. -/
def docW5a : List Page := [{ blocks := [] }]

/-- A page with two spans of distinct raw sizes. -/
def docW5b : List Page :=
  [{ blocks := [some [[{ text := "a", size := 12 }, { text := "b", size := 14 }]]] }]

/-- Witness for C5 (amended): the no-text default and the agreement
under distinct raw sizes, at concrete documents. -/
theorem spec_c5_witness :
    bodyFontSize docW5a = 12 ∧ bodyFontSize docW5b = specBodyFontSize docW5b :=
  ⟨spec_c5.1 docW5a (by simp [docSpanSizes, docW5a]),
   spec_c5.2 docW5b (by
    have h : docSpanSizes docW5b = [12, 14] := by simp [docSpanSizes, docW5b, blockSpans]
    rw [h]
    norm_num [List.nodup_cons])⟩

/-! ## src/1a/main.py: PDFOutlineExtractor -/

inductive Lang
  | spanish | french | german | hindi | chinese | japanese | arabic
deriving DecidableEq

/-- One language pack of `MULTILINGUAL_PATTERNS`. -/
structure LangPatterns where
  form_patterns : List String
  tech_headings : List String
  business_headings : List String
deriving DecidableEq

def MULTILINGUAL_PATTERNS : Lang → LangPatterns
  | .spanish =>
    { form_patterns :=
        ["formulario de solicitud", "servidor público", "funcionario gubernamental",
         "designación", "servicio", "salario", "permanente o temporal"],
      tech_headings :=
        ["historial de revisiones", "tabla de contenidos", "agradecimientos",
         "introducción", "referencias", "marcas comerciales", "documentos",
         "audiencia objetivo", "trayectorias profesionales", "objetivos de aprendizaje",
         "requisitos de entrada", "estructura y duración del curso", "contenido"],
      business_headings :=
        ["antecedentes", "resumen", "hitos", "enfoque",
         "evaluación", "apéndice", "términos de referencia"] }
  | .french =>
    { form_patterns :=
        ["formulaire de demande", "fonctionnaire", "agent gouvernemental",
         "désignation", "service", "salaire", "permanent ou temporaire"],
      tech_headings :=
        ["historique des révisions", "table des matières", "remerciements",
         "introduction", "références", "marques déposées", "documents",
         "public cible", "parcours professionnels", "objectifs d\x27apprentissage",
         "conditions d\x27entrée", "structure et durée du cours", "contenu"],
      business_headings :=
        ["contexte", "résumé", "jalons", "approche",
         "évaluation", "annexe", "termes de référence"] }
  | .german =>
    { form_patterns :=
        ["antragsformular", "beamter", "regierungsangestellter",
         "bezeichnung", "dienst", "gehalt", "dauerhaft oder vorübergehend"],
      tech_headings :=
        ["revisionshistorie", "inhaltsverzeichnis", "danksagungen",
         "einführung", "referenzen", "warenzeichen", "dokumente",
         "zielgruppe", "karrierewege", "lernziele",
         "eingangsvoraussetzungen", "struktur und kursdauer", "inhalt"],
      business_headings :=
        ["hintergrund", "zusammenfassung", "meilensteine", "ansatz",
         "bewertung", "anhang", "referenzbedingungen"] }
  | .hindi =>
    { form_patterns :=
        ["आवेदन पत्र", "सरकारी कर्मचारी", "सरकारी अधिकारी",
         "पदनाम", "सेवा", "वेतन", "स्थायी या अस्थायी"],
      tech_headings :=
        ["संशोधन इतिहास", "विषय सूची", "आभार", "परिचय", "संदर्भ",
         "ट्रेडमार्क", "दस्तावेज", "लक्षित दर्शक", "करियर पथ",
         "सीखने के उद्देश्य", "प्रवेश आवश्यकताएं", "संरचना और पाठ्यक्रम अवधि", "सामग्री"],
      business_headings :=
        ["पृष्ठभूमि", "सारांश", "मील के पत्थर", "दृष्टिकोण",
         "मूल्यांकन", "परिशिष्ट", "संदर्भ की शर्तें"] }
  | .chinese =>
    { form_patterns :=
        ["申请表", "公务员", "政府工作人员", "职务", "服务", "工资", "永久或临时"],
      tech_headings :=
        ["修订历史", "目录", "致谢", "介绍", "参考文献", "商标", "文档",
         "目标受众", "职业道路", "学习目标", "入学要求", "结构和课程持续时间", "内容"],
      business_headings :=
        ["背景", "摘要", "里程碑", "方法", "评估", "附录", "参考条款"] }
  | .japanese =>
    { form_patterns :=
        ["申請書", "公務員", "政府職員", "指定", "サービス", "給与", "恒久的または一時的"],
      tech_headings :=
        ["改訂履歴", "目次", "謝辞", "紹介", "参考文献", "商標", "文書",
         "対象読者", "キャリアパス", "学習目標", "入学要件", "構造とコース期間", "コンテンツ"],
      business_headings :=
        ["背景", "要約", "マイルストーン", "アプローチ", "評価", "付録", "参照条項"] }
  | .arabic =>
    { form_patterns :=
        ["نموذج طلب", "موظف حكومي", "خادم الحكومة", "تعيين", "خدمة", "راتب", "دائم أو مؤقت"],
      tech_headings :=
        ["تاريخ المراجعة", "جدول المحتويات", "شكر وتقدير", "مقدمة", "مراجع",
         "علامات تجارية", "وثائق", "الجمهور المستهدف", "مسارات مهنية", "أهداف التعلم",
         "متطلبات الدخول", "الهيكل ومدة الدورة", "محتوى"],
      business_headings :=
        ["خلفية", "ملخص", "معالم", "نهج", "تقييم", "ملحق", "شروط مرجعية"] }

def isDevanagariChar (c : Char) : Bool := 0x900 ≤ c.toNat && c.toNat ≤ 0x97F

def isCJKChar (c : Char) : Bool := 0x4e00 ≤ c.toNat && c.toNat ≤ 0x9fff

def isKanaChar (c : Char) : Bool :=
  (0x3040 ≤ c.toNat && c.toNat ≤ 0x309f) || (0x30a0 ≤ c.toNat && c.toNat ≤ 0x30ff)

def isArabicScriptChar (c : Char) : Bool := 0x600 ≤ c.toNat && c.toNat ≤ 0x6ff

def frenchDia : List Char := "àáâãäåæçèéêëìíîïðñòóôõöøùúûüýþÿ".data

def germanDia : List Char := "äöüßÄÖÜ".data

def spanishDia : List Char := "ñáéíóúüÑÁÉÍÓÚÜ".data

def hasAnyChar (s : String) (cs : List Char) : Bool := s.data.any (fun c => c ∈ cs)

/-- Pattern hits counted over all three pattern categories of one
language pack. -/
def patternHits (dtl : String) (P : LangPatterns) : ℕ :=
  ((P.form_patterns ++ P.tech_headings ++ P.business_headings).filter
    (fun p => strHasSub dtl p)).length

/-- `_detect_non_english_language`: script ranges take priority, then
European languages are scored by pattern hits plus a +2 diacritic
bonus; the first language (in spanish/french/german order) with the
highest score wins if its score exceeds 1. -/
def langOfText (docText : String) : Option Lang :=
  if docText.data.any isDevanagariChar then some .hindi
  else if docText.data.any isCJKChar then some .chinese
  else if docText.data.any isKanaChar then some .japanese
  else if docText.data.any isArabicScriptChar then some .arabic
  else
    match maxByFirst (fun a b => a.2 > b.2)
      [(Lang.spanish, patternHits (pyLower docText) (MULTILINGUAL_PATTERNS .spanish) +
          (if hasAnyChar docText spanishDia then 2 else 0)),
       (Lang.french, patternHits (pyLower docText) (MULTILINGUAL_PATTERNS .french) +
          (if hasAnyChar docText frenchDia then 2 else 0)),
       (Lang.german, patternHits (pyLower docText) (MULTILINGUAL_PATTERNS .german) +
          (if hasAnyChar docText germanDia then 2 else 0))] with
    | some best => if best.2 > 1 then some best.1 else none
    | none => none

/-- A raw heading candidate of the 1a extractor. -/
structure RawHeading1a where
  text : String
  size : ℚ
  bold : Bool
  page : ℕ
deriving DecidableEq

/-- A classified heading of the 1a extractor. -/
structure Heading1a where
  level : String
  text : String
  page : ℕ
deriving DecidableEq

def stripOneNl (l : List Char) : List Char :=
  match l.getLast? with
  | some '\n' => l.dropLast
  | _ => l

/-- `re.match(r'^RFP:.*\d{4}$', text)`. -/
def matchRFP (t : String) : Bool :=
  let core := stripOneNl t.data
  hasPre "RFP:".data core &&
    (let rest := core.drop 4
     decide (rest.length ≥ 4) && rest.all (fun c => c ≠ '\n') &&
       (rest.drop (rest.length - 4)).all pyIsDigit)

/-- `re.match(r'^\d+$', text)`. -/
def allDigitsMatch (t : String) : Bool :=
  let core := stripOneNl t.data
  decide (core ≠ []) && core.all pyIsDigit

/-- `re.match(r'^\d+\.\s*[a-z]', text)` (the caller lowercases). -/
def matchNumDotLower (t : String) : Bool :=
  match t.data.takeWhile pyIsDigit, t.data.dropWhile pyIsDigit with
  | _ :: _, '.' :: rest =>
    (match rest.dropWhile pyIsSpace with
     | c :: _ => pyIsLowerAlpha c
     | [] => false)
  | _, _ => false

/-- `re.match(r'^\d+\.\d+\s*[A-Za-z]', text)`. -/
def matchNumDotNum (t : String) : Bool :=
  match t.data.takeWhile pyIsDigit, t.data.dropWhile pyIsDigit with
  | _ :: _, '.' :: rest =>
    (match rest.takeWhile pyIsDigit, (rest.dropWhile pyIsDigit).dropWhile pyIsSpace with
     | _ :: _, c :: _ => pyIsAlpha c
     | _, _ => false)
  | _, _ => false

/-- `re.match(r'^\d+\.(\d+)?\s+[A-Za-z]', text)`. -/
def matchNumDotOpt (t : String) : Bool :=
  match t.data.takeWhile pyIsDigit, t.data.dropWhile pyIsDigit with
  | _ :: _, '.' :: rest =>
    (let r2 := rest.dropWhile pyIsDigit
     match r2.takeWhile pyIsSpace, r2.dropWhile pyIsSpace with
     | _ :: _, c :: _ => pyIsAlpha c
     | _, _ => false)
  | _, _ => false

def MKBChars : List Char := ['M', 'K', 'B']

/-- Tail `[MKB]?\$?\d+[MKB]?$` of the money pattern; the optional
elements are decided deterministically because their character classes
are disjoint from what must follow. -/
def money1Tail (l : List Char) : Bool :=
  let l1 := match l with
    | c :: r => if c ∈ MKBChars then r else l
    | [] => l
  let l2 := match l1 with
    | '$' :: r => r
    | _ => l1
  decide (l2.takeWhile pyIsDigit ≠ []) &&
    (match l2.dropWhile pyIsDigit with
     | [] => true
     | [c] => decide (c ∈ MKBChars)
     | _ => false)

/-- `re.match(r'^\$?\d+[MKB]?\$?\d+[MKB]?$', text)`: the split of the
digits between the two `\d+` groups is found by search, mirroring
regex backtracking. -/
def matchMoney1 (t : String) : Bool :=
  let core := stripOneNl t.data
  let core2 := match core with
    | '$' :: r => r
    | _ => core
  (List.range (core2.length + 1)).any (fun i =>
    decide (1 ≤ i) && (core2.take i).all pyIsDigit && money1Tail (core2.drop i))

/-- `re.match(r'^[A-Z\s]+\$\d+[MKB]', text)`. -/
def matchMoney2 (t : String) : Bool :=
  match t.data.takeWhile (fun c => pyIsUpperAlpha c || pyIsSpace c),
      t.data.dropWhile (fun c => pyIsUpperAlpha c || pyIsSpace c) with
  | _ :: _, '$' :: rest =>
    (match rest.takeWhile pyIsDigit, rest.dropWhile pyIsDigit with
     | _ :: _, c :: _ => decide (c ∈ MKBChars)
     | _, _ => false)
  | _, _ => false

def garbagePatterns : List String :=
  [String.mk (List.replicate 76 '.'), String.mk (List.replicate 63 '.'),
   String.mk (List.replicate 41 '.'), "www.", ".com", ".org"]

def formPatternsEn : List String :=
  ["name of the government servant", "designation", "service", "pay + si + npa",
   "whether permanent or temporary", "home town as recorded", "amount of advance required"]

def techHeadingsEn : List String :=
  ["revision history", "table of contents", "acknowledgements",
   "introduction", "references", "trademarks", "documents",
   "intended audience", "career paths", "learning objectives",
   "entry requirements", "structure and course duration",
   "keeping it current", "business outcomes", "content"]

def businessHeadingsEn : List String :=
  ["background", "summary", "milestones", "approach",
   "evaluation", "appendix", "terms of reference"]

/-- `_is_obviously_not_heading`. -/
def isObviouslyNot1a (t : String) (mlp : Option LangPatterns) : Bool :=
  if t.length < 3 ∨ t.length > 200 then true
  else if garbagePatterns.any (fun p => strHasSub t p) then true
  else if formPatternsEn.any (fun p => strHasSub (pyLower t) p) then true
  else if (match mlp with
    | some P => P.form_patterns.any (fun p => strHasSub (pyLower t) p)
    | none => false) then true
  else if matchRFP t || allDigitsMatch t then true
  else if t.length > 100 ∧ ['.', ',', ';', ':'].any (fun c => c ∈ t.data) then true
  else if startsWithAnyChar t ['•', '-', '*'] then true
  else if matchNumDotLower (pyLower t) then true
  else if matchNumDotNum t then true
  else if matchMoney1 t then true
  else if matchMoney2 t then true
  else false

/-- `_is_likely_heading`. -/
def isLikelyHeading1a (t : String) (size : ℚ) (bold : Bool) (dtl : String)
    (mlp : Option LangPatterns) : Bool :=
  if matchNumDotOpt t then true
  else if pyIsUpper t && decide (t.length > 5) then true
  else if bold && decide (size > 14) then true
  else if decide (size > 16) then true
  else if (match mlp with
    | some P => P.tech_headings.any (fun h => strHasSub (pyLower t) h) ||
        P.business_headings.any (fun h => strHasSub (pyLower t) h)
    | none => false) then true
  else if strHasSub dtl "foundation level" then
    techHeadingsEn.any (fun h => strHasSub (pyLower t) h)
  else if strHasSub dtl "rfp" || strHasSub dtl "digital library" then
    businessHeadingsEn.any (fun h => strHasSub (pyLower t) h)
  else if strHasSub dtl "pathway options" || strHasSub dtl "stem pathways" then
    strHasSub (pyLower t) "pathway options"
  else if strHasSub dtl "hope to see you" || strHasSub dtl "rsvp" then
    strHasSub (pyLower t) "hope to see you there"
  else false

/-- `_extract_headings_from_page`. -/
def extractHeadingsFromPage1a (p : Page) (pageNum : ℕ) (dtl : String)
    (mlp : Option LangPatterns) : List RawHeading1a :=
  p.blocks.filterMap (fun b =>
    match b with
    | none => none
    | some ls =>
      let spans := blockSpans ls
      let t := pyStrip (spansText spans)
      if t = "" ∨ t.length < 3 ∨ t.length > 200 then none
      else if isObviouslyNot1a t mlp then none
      else if isLikelyHeading1a t (spansMaxSize spans) (spansBold spans) dtl mlp then
        some { text := t, size := spansMaxSize spans, bold := spansBold spans, page := pageNum }
      else none)

/-- Per-run deduplication on stripped heading text (first occurrence
wins). -/
def dedupByTextAux (seen : List String) : List RawHeading1a → List RawHeading1a
  | [] => []
  | h :: rest =>
    if pyStrip h.text ∈ seen then dedupByTextAux seen rest
    else h :: dedupByTextAux (pyStrip h.text :: seen) rest

def dedupByText (hs : List RawHeading1a) : List RawHeading1a := dedupByTextAux [] hs

/-- Level classification of `_filter_headings`.  The multilingual
classification of the original is computed and then unconditionally
overwritten by the English rfp/size-based branch, exactly as in the
code. -/
def classify1a (h : RawHeading1a) (dtl : String) (mlp : Option LangPatterns) : String :=
  let text := pyLower h.text
  let _lvlMl : String := match mlp with
    | some P =>
      if (P.business_headings.take 4).any (fun s => strHasSub text s) then "H1"
      else if (P.tech_headings.take 6).any (fun s => strHasSub text s) then "H1"
      else if (P.business_headings.drop 4).any (fun s => strHasSub text s) then "H2"
      else if (P.tech_headings.drop 6).any (fun s => strHasSub text s) then "H2"
      else "H3"
    | none => "H3"
  if strHasSub dtl "rfp" || strHasSub dtl "digital library" then
    if ["summary", "background", "milestones", "approach", "evaluation"].any
        (fun s => strHasSub text s) then "H1"
    else if ["appendix", "terms of reference", "membership"].any
        (fun s => strHasSub text s) then "H2"
    else "H3"
  else
    if h.size > 16 then "H1" else if h.size > 14 then "H2" else "H3"

def page1aLe (a b : Heading1a) : Prop := a.page ≤ b.page

instance : DecidableRel page1aLe := fun a b => by unfold page1aLe; infer_instance

/-- `_filter_headings`. -/
def filterHeadings1a (hs : List RawHeading1a) (dtl : String)
    (mlp : Option LangPatterns) : List Heading1a :=
  if hs = [] then []
  else if strHasSub dtl "pathway options" || strHasSub dtl "stem pathways" then
    match (dedupByText hs).find? (fun h => strHasSub (pyLower h.text) "pathway options") with
    | some h => [{ level := "H1", text := h.text, page := 0 }]
    | none => []
  else if strHasSub dtl "hope to see you" || strHasSub dtl "rsvp" then
    match (dedupByText hs).find? (fun h => strHasSub (pyLower h.text) "hope to see you there") with
    | some h => [{ level := "H1", text := h.text, page := 0 }]
    | none => []
  else
    List.insertionSort page1aLe
      ((dedupByText hs).map (fun h =>
        { level := classify1a h dtl mlp, text := h.text, page := h.page }))

/-- Text of the first three pages (language / form detection sample). -/
def first3Text (doc : List Page) : String := String.join ((doc.take 3).map (·.text))

/-- `_extract_headings` with the document text sample already
lowercased. -/
def extractHeadingsCore (doc : List Page) (dtl : String)
    (mlp : Option LangPatterns) : List Heading1a :=
  if strHasSub dtl "application form" || strHasSub dtl "government servant" then []
  else if (match mlp with
    | some P => P.form_patterns.any (fun p => strHasSub dtl p)
    | none => false) then []
  else
    filterHeadings1a
      ((doc.enum.map (fun pp => extractHeadingsFromPage1a pp.2 pp.1 dtl mlp)).flatten)
      dtl mlp

/-- `PDFOutlineExtractor._extract_headings`. -/
def extractHeadings1a (doc : List Page) (mlp : Option LangPatterns) : List Heading1a :=
  extractHeadingsCore doc (pyLower (first3Text doc)) mlp

/-- Title score of `_extract_title`. -/
def titleScore1a (c : TitleCand) : ℕ :=
  (if c.bold then 3 else 0) +
  (if c.size > 16 then 2 else if c.size > 14 then 1 else 0) +
  (if qinfLt c.pos 200 then 2 else 0)

/-- `_extract_title` (threshold-scored variant of title selection). -/
def extractTitle1a (doc : List Page) : String :=
  match doc with
  | [] => ""
  | p0 :: _ =>
    match maxByFirst (fun a b => titleScore1a a > titleScore1a b) (pageTitleCands p0) with
    | none => ""
    | some best => if titleScore1a best > 2 then best.text else ""

/-- The result dict of `PDFOutlineExtractor.extract_outline`. -/
structure Outline1a where
  title : String
  outline : List Heading1a
  detected_language : Option Lang
deriving DecidableEq

/-- `PDFOutlineExtractor.extract_outline`: detect the language from
the first three pages, then extract title and headings. -/
def extractOutline1a (doc : List Page) : Outline1a :=
  { title := extractTitle1a doc,
    outline := extractHeadings1a doc ((langOfText (first3Text doc)).map MULTILINGUAL_PATTERNS),
    detected_language := langOfText (first3Text doc) }

/-- C7 (amended): the form-document short-circuit exists only in the
1a extractor — if the lowercased text of the first three pages
contains "application form", or the detected language has a form
pattern contained in it, the 1a `_extract_headings` returns no
headings at all, whatever blocks the pages carry. The 1b
`extract_outline` performs no such check and can still emit headings
on a form document (see `spec_c7_counterexample`). -/
theorem spec_c7 (doc : List Page)
    (h : strHasSub (pyLower (first3Text doc)) "application form" = true ∨
      (∃ l p, langOfText (first3Text doc) = some l ∧
        p ∈ (MULTILINGUAL_PATTERNS l).form_patterns ∧
        strHasSub (pyLower (first3Text doc)) p = true)) :
    (extractOutline1a doc).outline = [] := by
  have hout : (extractOutline1a doc).outline =
      extractHeadingsCore doc (pyLower (first3Text doc))
        ((langOfText (first3Text doc)).map MULTILINGUAL_PATTERNS) := rfl
  rw [hout]
  unfold extractHeadingsCore
  rcases h with hEn | ⟨l, p, hl, hp, hsub⟩
  · rw [if_pos (by simp [hEn])]
  · by_cases h1 : (strHasSub (pyLower (first3Text doc)) "application form" ||
        strHasSub (pyLower (first3Text doc)) "government servant") = true
    · rw [if_pos h1]
    · rw [if_neg h1]
      simp only [hl, Option.map_some']
      rw [if_pos (by simp only [List.any_eq_true]; exact ⟨p, hp, hsub⟩)]

/-- A large bold heading-looking span. -/
def spanC7 : Span :=
  { text := "BIG BOLD HEADING", size := 30, flags := 16, y0 := 100, y1 := 110 }

/-- A page whose text mentions an application form but whose single
block is a large bold heading-looking span. -/
def docC7 : List Page :=
  [{ blocks := [some [[spanC7]]], height := 800,
     text := "Please fill in this Application Form now." }]

/-- Witness for C7: the English phrase branch at a concrete document
with strong font-size signals. -/
theorem spec_c7_witness : (extractOutline1a docC7).outline = [] :=
  spec_c7 docC7 (Or.inl (by decide))

/-- A page whose raw text mentions an application form but whose
single block is the bold 20pt span `spanW4`. -/
def pageC7b : Page :=
  { blocks := [some [[spanW4]]], height := 800,
    text := "Please fill in this Application Form now." }

def docC7b : List Page := [pageC7b]

lemma bodyFontSize_docC7b : bodyFontSize docC7b = 20 := by
  have hr : round1 20 = 20 := by norm_num [round1, roundHalfEven]
  simp [bodyFontSize, docSpanSizes, docC7b, pageC7b, spanW4, blockSpans,
    mostCommonFirst, maxByFirst, dedupFirst, dedupFirstAux, hr]

lemma collectHeadings_docC7b : collectHeadings 20 docC7b = [hW4] := by
  have ht : pyStrip (spansText (blockSpans [[spanW4]])) = "Heading One Example" := by decide
  have h2 : startsWithAnyChar "Heading One Example" ['•', '-', '*'] = false := by decide
  have h3 : pyLower "Heading One Example" = "heading one example" := by decide
  have h4 : countAlpha "Heading One Example" = 17 := by decide
  have h5 : pyIsUpper "Heading One Example" = false := by decide
  have h6 : matchNumbered "Heading One Example" = false := by decide
  have h7 : normTitle "Heading One Example" = "heading one example" := by decide
  have hlen : ("Heading One Example" : String).length = 19 := rfl
  have hy : spansMinY (blockSpans [[spanW4]]) = some 100 := by decide
  have hmaxy : spansMaxY (blockSpans [[spanW4]]) = 110 := by decide
  have hsz : spansMaxSize (blockSpans [[spanW4]]) = 20 := by decide
  have hbold : spansBold (blockSpans [[spanW4]]) = true := by decide
  have hind : spansMinIndent (blockSpans [[spanW4]]) = some 100 := by decide
  simp only [collectHeadings, docC7b, pageC7b, List.take, List.enum, List.enumFrom, List.foldl,
    processPage, processBlock, ht, h2, h3, h4, h5, h6, h7, hlen, hy, hmaxy, hsz, hbold, hind]
  norm_num [isHeadingB, qinfLt, getLevel, hW4, h5, h6, hlen]
  decide

/-- Counterexample to C7 as stated for its cited 1b path: the 1b
`extract_outline` has no form-document check, so on a document whose
first-three-page text contains "application form" it still returns a
non-empty heading list. -/
theorem spec_c7_counterexample :
    strHasSub (pyLower (first3Text docC7b)) "application form" = true ∧
    extractOutline docC7b = some ⟨"Heading One Example", [hW4]⟩ := by
  constructor
  · decide
  · have ht : titleOf pageC7b = "Heading One Example" := by decide
    have hstep : extractOutline docC7b =
        some ⟨titleOf pageC7b, collectHeadings (bodyFontSize docC7b) docC7b⟩ := rfl
    rw [hstep, ht, bodyFontSize_docC7b, collectHeadings_docC7b]

/-! ## src/1b/src/ranker.py: normalisation, tokenisation, snippets -/

def isBulletChar (c : Char) : Bool := c = '•' || c = '·'

/-- `re.sub(r"(\w)-\n(\w)", r"\1\2", t)`: de-hyphenate line-wrapped
words; after a replacement scanning resumes past the consumed pair. -/
def dehyphF : ℕ → List Char → List Char
  | 0, l => l
  | _ + 1, [] => []
  | fuel + 1, a :: rest =>
    match rest with
    | h :: h2 :: b :: rest2 =>
      if h = '-' && h2 = '\n' && pyIsWord a && pyIsWord b then a :: b :: dehyphF fuel rest2
      else a :: dehyphF fuel rest
    | _ => a :: dehyphF fuel rest

/-- `dehyphF` with enough fuel (one unit per consumed character). -/
def dehyph (l : List Char) : List Char := dehyphF l.length l

/-- Replace every maximal run of `p`-characters by a single space
(`re.sub(r"[c…]+", " ", t)`). -/
def collapseClass (p : Char → Bool) (l : List Char) : List Char :=
  ((runsByC (fun c => if p c then 0 else 1) l).map
    (fun r => if r.1 = 0 then [' '] else r.2)).flatten

/-- `normalize_text`. -/
def normalizeText (s : String) : String :=
  if s = "" then ""
  else
    let t1 := dehyph s.data
    let t2 := t1.map (fun c => if c = '\x0d' then ' ' else c)
    let t3 := t2.map (fun c => if c = '\n' then ' ' else c)
    let t4 := collapseClass isBulletChar t3
    let t5 := collapseClass (fun c => c = '\t') t4
    let t6 := collapseClass pyIsSpace t5
    pyLower (String.mk (stripChars t6))

/-- `tokenize_words`: maximal `[a-z0-9]` runs of length at least 2 in
the lowercased text. -/
def tokenizeWords (s : String) : List String :=
  if s = "" then []
  else
    (runsByC (fun c => if pyIsLowerAlpha c || pyIsDigit c then 0 else 1) (pyLower s).data).filterMap
      (fun r => if r.1 = 0 ∧ r.2.length ≥ 2 then some (String.mk r.2) else none)

/-- `build_bigrams`. -/
def buildBigrams : List String → List (String × String)
  | [] => []
  | a :: rest =>
    match rest with
    | b :: _ => (a, b) :: buildBigrams rest
    | [] => []

/-- `re.split(r"(?<=[\.!?])\s+", text)` over the whitespace-run
decomposition: a whitespace run is a split point exactly when the last
accumulated character is sentence punctuation. -/
def sentenceSplitRuns (cur : List Char) : List (ℕ × List Char) → List (List Char)
  | [] => [cur.reverse]
  | (cls, run) :: rest =>
    if cls = 0 then
      match cur with
      | p :: _ =>
        if p = '.' || p = '!' || p = '?' then cur.reverse :: sentenceSplitRuns [] rest
        else sentenceSplitRuns (run.reverse ++ cur) rest
      | [] => sentenceSplitRuns (run.reverse ++ cur) rest
    else sentenceSplitRuns (run.reverse ++ cur) rest

/-- `sentence_split`. -/
def sentenceSplit (s : String) : List String :=
  if s = "" then []
  else
    let parts := (sentenceSplitRuns [] (runsByC wsClass (stripChars s.data))).map String.mk
    (parts.map pyStrip).filter (fun p => p.length > 0)

/-- Sentence score of `select_snippet`: unigram hits plus twice the
bigram hits. -/
def sentScore (qTerms : List String) (qBigrams : List (String × String)) (s : String) : ℚ :=
  let tokens := tokenizeWords s
  let unigramHits := (qTerms.filter (fun t => t ∈ tokens)).length
  let bigramHits :=
    if tokens.length > 1 ∧ qBigrams ≠ [] then
      (qBigrams.filter (fun b => b ∈ buildBigrams tokens)).length
    else 0
  (unigramHits : ℚ) + 2 * (bigramHits : ℚ)

/-- First maximum (index and element) under a key: Python
`max(range(len(l)), key=...)`; ties resolve to the earliest index. -/
def argmaxFirst (f : α → ℚ) : List α → Option (ℕ × α)
  | [] => none
  | x :: xs =>
    match argmaxFirst f xs with
    | none => some (0, x)
    | some (j, y) => if f x ≥ f y then some (0, x) else some (j + 1, y)

/-- Concatenation with single spaces: `" ".join(l)` at the char
level. -/
def joinChars : List (List Char) → List Char
  | [] => []
  | w :: rest =>
    match rest with
    | [] => w
    | _ :: _ => w ++ ' ' :: joinChars rest

/-- `select_snippet`. -/
def selectSnippet (originalText : String) (queryTerms : List String)
    (maxTokens : ℕ := 150) : String :=
  let sentences := sentenceSplit (normalizeText originalText)
  if sentences = [] then String.mk (originalText.data.take 600)
  else
    let qTerms := queryTerms.filter (fun t => t.length > 2)
    let qBigrams := buildBigrams qTerms
    match argmaxFirst (sentScore qTerms qBigrams) sentences with
    | none => ""
    | some (bestIdx, _) =>
      let start := bestIdx - 1
      let stop := min sentences.length (bestIdx + 2)
      let snippet := String.mk (joinChars (((sentences.drop start).take (stop - start)).map (·.data)))
      let tokens := pySplitWs snippet
      if tokens.length > maxTokens then
        String.mk (joinChars ((tokens.take maxTokens).map (·.data)))
      else String.mk (joinChars (tokens.map (·.data)))

lemma wordsAux_nil_ne (cur : List Char) (h : cur ≠ []) : wordsAux [] cur = [cur.reverse] := by
  cases cur with
  | nil => exact absurd rfl h
  | cons x xs => rfl

lemma wordsAux_wf : ∀ (l cur : List Char), (∀ c ∈ cur, pyIsSpace c = false) →
    ∀ w ∈ wordsAux l cur, w ≠ [] ∧ ∀ c ∈ w, pyIsSpace c = false := by
  intro l
  induction l with
  | nil =>
    intro cur hcur w hw
    by_cases hc : cur = []
    · subst hc; simp [wordsAux] at hw
    · rw [wordsAux_nil_ne cur hc] at hw
      obtain rfl := List.mem_singleton.mp hw
      refine ⟨by simpa using hc, fun c hcm => hcur c (List.mem_reverse.mp hcm)⟩
  | cons c0 cs ih =>
    intro cur hcur w hw
    simp only [wordsAux] at hw
    by_cases hsp : pyIsSpace c0
    · rw [if_pos hsp] at hw
      by_cases hc : cur.isEmpty
      · rw [if_pos hc] at hw
        exact ih [] (by simp) w hw
      · rw [if_neg hc] at hw
        rcases List.mem_cons.mp hw with rfl | hw2
        · refine ⟨?_, fun c hcm => hcur c (List.mem_reverse.mp hcm)⟩
          simpa using fun h => hc (by simp [h, List.isEmpty_iff])
        · exact ih [] (by simp) w hw2
    · rw [if_neg hsp] at hw
      refine ih (c0 :: cur) ?_ w hw
      intro c hcm
      rcases List.mem_cons.mp hcm with rfl | hcm2
      · simpa using hsp
      · exact hcur c hcm2

lemma wordsAux_append_nonspace :
    ∀ (w : List Char), (∀ c ∈ w, pyIsSpace c = false) →
      ∀ (l cur : List Char), wordsAux (w ++ l) cur = wordsAux l (w.reverse ++ cur) := by
  intro w
  induction w with
  | nil => intro _ l cur; simp
  | cons c w' ih =>
    intro hw l cur
    have hc : pyIsSpace c = false := hw c (List.mem_cons_self _ _)
    simp only [List.cons_append, wordsAux, hc, Bool.false_eq_true, if_false]
    refine (ih (fun c' hc' => hw c' (List.mem_cons_of_mem _ hc')) l (c :: cur)).trans ?_
    simp [List.append_assoc]

lemma joinChars_words :
    ∀ (ws : List (List Char)),
      (∀ w ∈ ws, w ≠ [] ∧ ∀ c ∈ w, pyIsSpace c = false) →
      wordsAux (joinChars ws) [] = ws := by
  intro ws
  induction ws with
  | nil => intro _; rfl
  | cons w rest ih =>
    intro h
    obtain ⟨hwne, hwns⟩ := h w (List.mem_cons_self _ _)
    cases rest with
    | nil =>
      show wordsAux w [] = [w]
      have h1 := wordsAux_append_nonspace w hwns [] []
      rw [List.append_nil] at h1
      rw [h1, List.append_nil, wordsAux_nil_ne _ (by simpa using hwne), List.reverse_reverse]
    | cons w2 rest2 =>
      show wordsAux (w ++ ' ' :: joinChars (w2 :: rest2)) [] = w :: w2 :: rest2
      rw [wordsAux_append_nonspace w hwns _ []]
      have hsp : pyIsSpace ' ' = true := by decide
      simp only [wordsAux, hsp, if_true, List.append_nil]
      rw [if_neg (by simpa [List.isEmpty_iff] using hwne)]
      rw [List.reverse_reverse]
      congr 1
      exact ih (fun w' hw' => h w' (List.mem_cons_of_mem _ hw'))

lemma pySplitWs_join (l : List String)
    (h : ∀ w ∈ l, w.data ≠ [] ∧ ∀ c ∈ w.data, pyIsSpace c = false) :
    pySplitWs (String.mk (joinChars (l.map (·.data)))) = l := by
  unfold pySplitWs
  have hjw : wordsAux (joinChars (l.map (·.data))) [] = l.map (·.data) := by
    refine joinChars_words _ ?_
    intro w hw
    obtain ⟨w', hw', rfl⟩ := List.mem_map.mp hw
    exact h w' hw'
  show (wordsAux (String.mk (joinChars (l.map (·.data)))).data []).map String.mk = l
  rw [show (String.mk (joinChars (l.map (·.data)))).data = joinChars (l.map (·.data)) from rfl]
  rw [hjw, List.map_map]
  have : (String.mk ∘ fun w : String => w.data) = id := by
    funext w
    cases w
    rfl
  rw [this, List.map_id]

lemma pySplitWs_wf (s : String) :
    ∀ w ∈ pySplitWs s, w.data ≠ [] ∧ ∀ c ∈ w.data, pyIsSpace c = false := by
  intro w hw
  obtain ⟨w', hw', rfl⟩ := List.mem_map.mp hw
  exact wordsAux_wf s.data [] (by simp) w' hw'

lemma argmaxFirst_isSome (f : α → ℚ) (l : List α) (h : l ≠ []) :
    ∃ p, argmaxFirst f l = some p := by
  cases l with
  | nil => exact absurd rfl h
  | cons x xs =>
    simp only [argmaxFirst]
    cases hx : argmaxFirst f xs with
    | none => exact ⟨(0, x), rfl⟩
    | some p =>
      by_cases hc : f x ≥ f p.2
      · exact ⟨(0, x), by simp [hc]⟩
      · exact ⟨(p.1 + 1, p.2), by simp [hc]⟩

/-- C6 (amended): when the normalised text parses into at least one
sentence, the snippet has at most 150 whitespace-delimited tokens; when
no sentence parses, `select_snippet` falls back to the first 600 raw
characters, for which the 150-token bound does not hold (see
`spec_c6_counterexample`). -/
theorem spec_c6 (text : String) (qs : List String) :
    (sentenceSplit (normalizeText text) ≠ [] →
      (pySplitWs (selectSnippet text qs 150)).length ≤ 150) ∧
    (sentenceSplit (normalizeText text) = [] →
      selectSnippet text qs 150 = String.mk (text.data.take 600)) := by
  constructor
  · intro hne
    simp only [selectSnippet]
    rw [if_neg hne]
    obtain ⟨p, hp⟩ := argmaxFirst_isSome
      (sentScore (qs.filter (fun t => t.length > 2))
        (buildBigrams (qs.filter (fun t => t.length > 2))))
      (sentenceSplit (normalizeText text)) hne
    rw [hp]
    obtain ⟨bestIdx, y⟩ := p
    simp only
    set sentences := sentenceSplit (normalizeText text) with hsent
    set snippet := String.mk (joinChars
      (((sentences.drop (bestIdx - 1)).take
        (min sentences.length (bestIdx + 2) - (bestIdx - 1))).map (·.data))) with hsnip
    by_cases hlen : (pySplitWs snippet).length > 150
    · rw [if_pos hlen]
      have hwf : ∀ w ∈ (pySplitWs snippet).take 150,
          w.data ≠ [] ∧ ∀ c ∈ w.data, pyIsSpace c = false :=
        fun w hw => pySplitWs_wf snippet w (List.take_subset _ _ hw)
      rw [pySplitWs_join _ hwf]
      simp [List.length_take]
    · rw [if_neg hlen]
      rw [pySplitWs_join _ (pySplitWs_wf snippet)]
      exact not_lt.mp hlen
  · intro hemp
    simp only [selectSnippet]
    rw [if_pos hemp]

/-- 151 repetitions of a bullet and a space (302 characters). -/
def c6text : String := String.mk ((List.replicate 151 ['•', ' ']).flatten)

set_option maxRecDepth 8000 in
/-- Counterexample to C6 as stated: on bullet-only text no sentence
parses, the fallback returns the raw 302-character prefix, and that
string splits into 151 > 150 whitespace-delimited tokens. -/
theorem spec_c6_counterexample :
    150 < (pySplitWs (selectSnippet c6text [] 150)).length := by decide

set_option maxRecDepth 8000 in
/-- Witness for C6 (amended): a sentence-bearing text obeys the
150-token bound, and the bullet-only text takes the 600-character
fallback branch. -/
theorem spec_c6_witness :
    (pySplitWs (selectSnippet "Alpha beta. Gamma delta." [] 150)).length ≤ 150 ∧
    selectSnippet c6text [] 150 = String.mk (c6text.data.take 600) :=
  ⟨(spec_c6 "Alpha beta. Gamma delta." []).1 (by decide),
   (spec_c6 c6text []).2 (by decide)⟩

/-! ## src/1b/src/ranker.py: scoring, cross-encoder pass, MMR -/

/-- `LEVEL_SCORE.get(level, 0.5)`. -/
def LEVEL_SCORE (lvl : String) : ℚ :=
  if lvl = "H1" then 1 else if lvl = "H2" then 0.7 else if lvl = "H3" then 0.5 else 0.5

/-- `is_clean_title` (ranker variant; the length-5 floor makes the
`title[3]` lookup safe here). -/
def isCleanTitleRk (title : String) : Bool :=
  let t := pyStrip title
  if t = "" ∨ t.length < 5 then false
  else if pyLower t ∈ ["page", "page 1", "table of contents", "contents", "index",
      "click here", "introduction"] then false
  else if startsWithAnyChar t ['•', '-', '*', '(', '[', '#'] then false
  else if (t.data.take 3).all pyIsDigit &&
      (match t.data.get? 3 with
       | some c4 => decide (c4 ∈ ['.', '-', ' '])
       | none => false) then false
  else if (match t.data with | [c] => pyIsAlpha c | _ => false) then false
  else if countAlpha t < 3 then false
  else if decide (t.data ≠ []) && t.data.all (fun c => !pyIsAlpha c) then false
  else true

/-- `is_actionable_section`. -/
def isActionable (s : Section) : Bool :=
  let text := pyLower s.text
  ["•", "-", "*", "1.", "2.", "3.", "step", "instruction", "guide", "how to"].any
    (fun b => strHasSub text b) ||
  ["tips", "activities", "recommendations", "things to do", "guide", "checklist",
    "process"].any (fun k => strHasSub text k)

/-- `re.split(r"[,/;\-]\s*|\s+", s)`: each punctuation delimiter also
absorbs following whitespace; whitespace runs split on their own. -/
def splitPJAux (cur : List Char) (absorb : Bool) : List Char → List String
  | [] => [String.mk cur.reverse]
  | c :: cs =>
    if absorb && pyIsSpace c then splitPJAux cur true cs
    else if c = ',' || c = '/' || c = ';' || c = '-' then
      String.mk cur.reverse :: splitPJAux [] true cs
    else if pyIsSpace c then String.mk cur.reverse :: splitPJAux [] true cs
    else splitPJAux (c :: cur) false cs

def splitPJ (s : String) : List String := splitPJAux [] false s.data

/-- `_build_queries`; the third variant joins the deduplicated term
bag (a Python `set`, modelled in insertion order). -/
def buildQueries (persona job : String) : List String :=
  [job, persona ++ " " ++ job,
   String.mk (joinChars ((dedupFirst
     ((splitPJ persona).filter (fun t => t.length > 2) ++
      (splitPJ job).filter (fun t => t.length > 2))).map (·.data)))]

/-- `re.findall(r"[a-zA-Z]{3,}", text)`: maximal alphabetic runs of
length at least 3. -/
def alphaRuns3 (s : String) : List String :=
  (runsByC (fun c => if pyIsAlpha c then 0 else 1) s.data).filterMap
    (fun r => if r.1 = 0 ∧ r.2.length ≥ 3 then some (String.mk r.2) else none)

/-- Term set of one section used by `_idf_weights`. -/
def sectionTermSet (s : Section) : List String :=
  dedupFirst (alphaRuns3 (pyLower (s.title ++ " " ++ s.text)))

/-- Document frequency of a term over the section list. -/
def dfCount (sections : List Section) (t : String) : ℕ :=
  (sections.filter (fun s => t ∈ sectionTermSet s)).length

/-- `_idf_weights` as a lookup with default 0 (`idf.get(term, 0.0)`);
`logf` is the abstract `math.log` collaborator. -/
def idfWeight (logf : ℚ → ℚ) (sections : List Section) (t : String) : ℚ :=
  if dfCount sections t = 0 then 0
  else logf (((sections.length : ℚ) + 1) / ((dfCount sections t : ℚ) + 0.5)) + 1

/-- The external collaborators and environment of `rank_sections`:
`cos` models `util.cos_sim` over the embedding model's encodings,
`bm25` models `BM25Okapi(corpus).get_scores`, `ce` the optional
cross-encoder's pairwise `predict`, `logf` the `math.log` of the IDF
weights and `diversity` the `DIVERSITY` environment value. -/
structure RankEnv where
  cos : String → String → ℚ
  bm25 : List (List String) → List String → List ℚ
  ce : Option (String → String → ℚ)
  logf : ℚ → ℚ
  diversity : ℚ

def scoreOf (s : Section) : ℚ := s.score.getD 0

/-- `f"{t}\n{b}"` over the normalised body, as embedded for the
semantic scores. -/
def sectionSemText (s : Section) : String := s.title ++ "\n" ++ normalizeText s.text

/-- BM25 corpus tokens (`title + normalized body`). -/
def corpusTokens (sections : List Section) : List (List String) :=
  sections.map (fun s => tokenizeWords (s.title ++ " " ++ normalizeText s.text))

/-- Per-section maximum semantic similarity over the query variants. -/
def semScores (E : RankEnv) (queries : List String) (sections : List Section) : List ℚ :=
  sections.map (fun s =>
    (listMax (queries.map (fun q => E.cos (normalizeText q) (sectionSemText s)))).getD 0)

/-- Per-section BM25 scores maxed over query variants and normalised
by the corpus maximum (floored at 1). -/
def bm25Scores (E : RankEnv) (queries : List String) (sections : List Section) : List ℚ :=
  if sections.isEmpty then []
  else
    let bm25All := queries.foldl
      (fun acc q => List.zipWith max acc (E.bm25 (corpusTokens sections) (tokenizeWords q)))
      (List.replicate sections.length 0)
    let maxB0 := (listMax bm25All).getD 1
    let maxB := if maxB0 ≤ 0 then 1 else maxB0
    bm25All.map (fun v => v / maxB)

/-- The combined per-section score (semantic, lexical, structural,
contextual, phrase and heading signals with their fixed weights). -/
def sectionScoreVal (E : RankEnv) (sections : List Section) (persona job : String)
    (sem lex : ℚ) (s : Section) : ℚ :=
  let semantic := max 0 sem * 0.65
  let lexical := lex * 0.20
  let levelBoost := LEVEL_SCORE (s.level.getD "H3") * 0.1
  let pageBoost := 1 / ((max 1 s.page_number : ℤ) : ℚ) * 0.05
  let actionableBoost : ℚ := if isActionable s then 0.05 else 0
  let lengthBoost : ℚ := if 250 < s.text.length ∧ s.text.length < 5000 then 0.05 else -0.1
  let titleQuality : ℚ := if isCleanTitleRk s.title then 0.07 else -0.07
  let jobTerms := (splitPJ (pyLower job)).filter (fun t => t.length > 3)
  let sectionText := pyLower (s.title ++ " " ++ s.text)
  let contextualMatches :=
    (jobTerms.filter (fun term => strHasSub sectionText term ∧ term.length > 3)).length
  let idfBoostRaw := ((jobTerms.filter (fun term => strHasSub sectionText term)).map
    (idfWeight E.logf sections)).sum
  let idfBoost := min (idfBoostRaw * 0.02) 0.10
  let contextualBoost := min ((contextualMatches : ℚ) * 0.03) 0.12 + idfBoost
  let keywordTerms := tokenizeWords (pyLower (persona ++ " " ++ job))
  let keywordBigrams := buildBigrams keywordTerms
  let bigramBodyBoost : ℚ :=
    if keywordBigrams ≠ [] ∧
        keywordBigrams.any (fun bg => bg ∈ buildBigrams (tokenizeWords sectionText)) then 0.10
    else 0
  let titleLow := pyLower s.title
  let headingBoost : ℚ :=
    (if keywordTerms.any (fun t => strHasSub titleLow t) then 0.10 else 0) +
    (if keywordBigrams ≠ [] ∧
        keywordBigrams.any (fun bg => bg ∈ buildBigrams (tokenizeWords titleLow)) then 0.05
     else 0)
  semantic + lexical + levelBoost + pageBoost + actionableBoost + lengthBoost +
    titleQuality + contextualBoost + bigramBodyBoost + headingBoost

/-- Stage 2: attach `s['score']` to every section. -/
def scoreStage (E : RankEnv) (sections : List Section) (persona job : String) :
    List Section :=
  sections.enum.map (fun p =>
    { p.2 with score := some (sectionScoreVal E sections persona job
        ((semScores E (buildQueries persona job) sections).getD p.1 0)
        ((bm25Scores E (buildQueries persona job) sections).getD p.1 0) p.2) })

/-- Descending order on `s['score']` (Python stable descending sort). -/
def scoreDescRel (a b : Section) : Prop := scoreOf b ≤ scoreOf a

instance : DecidableRel scoreDescRel := fun a b => by unfold scoreDescRel; infer_instance

instance : IsTotal Section scoreDescRel := ⟨fun a b => le_total (scoreOf b) (scoreOf a)⟩

instance : IsTrans Section scoreDescRel := ⟨fun _ _ _ h1 h2 => le_trans h2 h1⟩

/-- `ordered = sorted(sections, key=lambda x: x['score'], reverse=True)`
(insertion sort is extensionally Python's stable sort). -/
def orderStage (l : List Section) : List Section := List.insertionSort scoreDescRel l

/-- Descending order on the `(x.get('_ce', 0.0), x['score'])` key. -/
def ceDescRel (a b : Section) : Prop :=
  b.ce.getD 0 < a.ce.getD 0 ∨ (b.ce.getD 0 = a.ce.getD 0 ∧ scoreOf b ≤ scoreOf a)

instance : DecidableRel ceDescRel := fun a b => by unfold ceDescRel; infer_instance

/-- Stage 3: optional cross-encoder rerank of the top pool. -/
def ceStage (E : RankEnv) (top_n : ℕ) (persona job : String)
    (ordered : List Section) : List Section :=
  match E.ce with
  | none => ordered
  | some f =>
    if ordered.isEmpty then ordered
    else
      List.insertionSort ceDescRel
        ((ordered.take (min ordered.length (max 10 (top_n * 3)))).map (fun s =>
          { s with ce := some (f (persona ++ " " ++ job)
              (s.title ++ ". " ++ normalizeText s.text)) })) ++
        ordered.drop (min ordered.length (max 10 (top_n * 3)))

/-- `f"{s.get('title','')}\n{s.get('text','')}"`: the embedding text of
the MMR candidates. -/
def candText (s : Section) : String := s.title ++ "\n" ++ s.text

/-- `x.get('_mmr', x['score'])`. -/
def retained (s : Section) : ℚ := s.mmr.getD (scoreOf s)

/-- One iteration of the MMR loop.  `none` models the `ValueError` of
`min` over an empty selection (`top_n = 0` with candidates present). -/
def mmrStep (E : RankEnv) (top_n : ℕ) (sel : List Section) (c : Section) :
    Option (List Section) :=
  if sel.length < top_n then some (sel ++ [c])
  else
    let simTo := (listMax (sel.map (fun s => E.cos (candText c) (candText s)))).getD 0
    let mmrScore := scoreOf c - E.diversity * simTo
    match argminFirst retained sel with
    | none => none
    | some (w, y) =>
      if mmrScore > retained y then some (sel.set w { c with mmr := some mmrScore })
      else some sel

def mmrFold (E : RankEnv) (top_n : ℕ) : List Section → List Section → Option (List Section)
  | sel, [] => some sel
  | sel, c :: cs =>
    match mmrStep E top_n sel c with
    | none => none
    | some sel2 => mmrFold E top_n sel2 cs

/-- Stage 4: the MMR selection loop over the ranked candidates. -/
def mmrPhase (E : RankEnv) (top_n : ℕ) (ordered : List Section) : Option (List Section) :=
  mmrFold E top_n [] ordered

/-- Descending order on the retained `_mmr`-or-score value. -/
def retDescRel (a b : Section) : Prop := retained b ≤ retained a

instance : DecidableRel retDescRel := fun a b => by unfold retDescRel; infer_instance

/-- `rank_sections`: score, stable-sort, optionally rerank with the
cross-encoder, MMR-select, sort by retained value, truncate to
`top_n`, attach snippets and delete the transient `_mmr` key. -/
def rankSections (E : RankEnv) (sections : List Section) (persona job : String)
    (top_n : ℕ) : Option (List Section) :=
  match mmrPhase E top_n
      (ceStage E top_n persona job (orderStage (scoreStage E sections persona job))) with
  | none => none
  | some sel =>
    some (((List.insertionSort retDescRel sel).take top_n).map (fun r =>
      { r with
        snippet := some (selectSnippet r.text (tokenizeWords (persona ++ " " ++ job)) 150),
        mmr := none }))

lemma argminFirst_mem {f : α → ℚ} :
    ∀ {l : List α} {w : ℕ} {y : α}, argminFirst f l = some (w, y) → y ∈ l := by
  intro l
  induction l with
  | nil => intro w y h; simp [argminFirst] at h
  | cons x xs ih =>
    intro w y h
    simp only [argminFirst] at h
    cases hx : argminFirst f xs with
    | none =>
      rw [hx] at h
      simp only [Option.some.injEq, Prod.mk.injEq] at h
      exact h.2 ▸ List.mem_cons_self _ _
    | some p =>
      obtain ⟨j, z⟩ := p
      rw [hx] at h
      simp only at h
      by_cases hc : f x ≤ f z
      · rw [if_pos hc] at h
        simp only [Option.some.injEq, Prod.mk.injEq] at h
        exact h.2 ▸ List.mem_cons_self _ _
      · rw [if_neg hc] at h
        simp only [Option.some.injEq, Prod.mk.injEq] at h
        exact h.2 ▸ List.mem_cons_of_mem _ (ih (w := j) (y := z) (by rw [hx]))

lemma argminFirst_isSome (f : α → ℚ) (l : List α) (h : l ≠ []) :
    ∃ p, argminFirst f l = some p := by
  cases l with
  | nil => exact absurd rfl h
  | cons x xs =>
    simp only [argminFirst]
    cases hx : argminFirst f xs with
    | none => exact ⟨(0, x), rfl⟩
    | some p =>
      by_cases hc : f x ≤ f p.2
      · exact ⟨(0, x), by simp [hc]⟩
      · exact ⟨(p.1 + 1, p.2), by simp [hc]⟩

lemma mmrFold_append (E : RankEnv) (n : ℕ) :
    ∀ (as bs : List Section) (sel : List Section),
      mmrFold E n sel (as ++ bs) = (mmrFold E n sel as).bind (fun s => mmrFold E n s bs) := by
  intro as
  induction as with
  | nil => intro bs sel; simp [mmrFold]
  | cons c as ih =>
    intro bs sel
    simp only [List.cons_append, mmrFold]
    cases mmrStep E n sel c with
    | none => rfl
    | some sel2 => exact ih bs sel2

lemma mmrFold_phase1 (E : RankEnv) (n : ℕ) :
    ∀ (cs sel : List Section), sel.length + cs.length ≤ n →
      mmrFold E n sel cs = some (sel ++ cs) := by
  intro cs
  induction cs with
  | nil => intro sel _; simp [mmrFold]
  | cons c cs ih =>
    intro sel h
    have hlt : sel.length < n := by
      simp only [List.length_cons] at h
      omega
    simp only [mmrFold, mmrStep, if_pos hlt]
    rw [ih (sel ++ [c]) (by simp only [List.length_append, List.length_singleton,
      List.length_cons, List.length_nil] at h ⊢; omega)]
    simp

lemma mmrFold_phase2 (E : RankEnv) (n : ℕ) (hdiv : E.diversity = 0) :
    ∀ (cs sel : List Section), sel.length = n → 0 < n →
      (∀ s ∈ sel, s.mmr = none) →
      (∀ c ∈ cs, ∀ s ∈ sel, scoreOf c ≤ scoreOf s) →
      mmrFold E n sel cs = some sel := by
  intro cs
  induction cs with
  | nil => intro sel _ _ _ _; rfl
  | cons c cs ih =>
    intro sel hlen hpos hmmr hsc
    have hnlt : ¬ sel.length < n := by omega
    have hne : sel ≠ [] := by
      intro hnil
      rw [hnil] at hlen
      simp at hlen
      omega
    obtain ⟨⟨w, y⟩, ham⟩ := argminFirst_isSome retained sel hne
    have hy : y ∈ sel := argminFirst_mem ham
    have hret : retained y = scoreOf y := by
      unfold retained
      rw [hmmr y hy]
      rfl
    simp only [mmrFold, mmrStep, if_neg hnlt, ham]
    rw [if_neg (by
      rw [hdiv, zero_mul, sub_zero, hret]
      exact not_lt.mpr (hsc c (List.mem_cons_self _ _) y hy))]
    exact ih sel hlen hpos hmmr (fun c' hc' => hsc c' (List.mem_cons_of_mem _ hc'))

/-- C1: `rank_sections` returns at most `top_n` sections; with the
diversity coefficient 0 the MMR loop on score-sorted candidates with
no prior `_mmr` annotations selects exactly the first `top_n`
candidates (the `top_n` highest raw scores, ties to earlier
candidates, since the score sort is stable and descending); the score
sort is indeed sorted descending, and without a cross-encoder the
rerank stage is the identity, so those are the candidates the MMR loop
receives. -/
theorem spec_c1 :
    (∀ (E : RankEnv) (sections : List Section) (persona job : String) (top_n : ℕ)
        (out : List Section),
      rankSections E sections persona job top_n = some out → out.length ≤ top_n) ∧
    (∀ (E : RankEnv) (top_n : ℕ) (ordered : List Section),
      E.diversity = 0 → List.Sorted scoreDescRel ordered →
      (∀ s ∈ ordered, s.mmr = none) → (0 < top_n ∨ ordered = []) →
      mmrPhase E top_n ordered = some (ordered.take top_n)) ∧
    (∀ l : List Section, List.Sorted scoreDescRel (orderStage l)) ∧
    (∀ (E : RankEnv) (top_n : ℕ) (persona job : String) (l : List Section),
      E.ce = none → ceStage E top_n persona job l = l) := by
  refine ⟨?_, ?_, ?_, ?_⟩
  · intro E sections persona job top_n out h
    unfold rankSections at h
    cases hm : mmrPhase E top_n
        (ceStage E top_n persona job (orderStage (scoreStage E sections persona job))) with
    | none => rw [hm] at h; exact absurd h (by simp)
    | some sel =>
      rw [hm] at h
      simp only [Option.some.injEq] at h
      subst h
      calc (((List.insertionSort retDescRel sel).take top_n).map _).length
          = ((List.insertionSort retDescRel sel).take top_n).length := List.length_map _ _
        _ ≤ top_n := List.length_take_le _ _
  · intro E top_n ordered hdiv hsort hmmr hpos
    rcases hpos with hpos | rfl
    swap
    · simp [mmrPhase, mmrFold, List.take_nil]
    by_cases hlen : ordered.length ≤ top_n
    · unfold mmrPhase
      rw [mmrFold_phase1 E top_n ordered [] (by simpa using hlen)]
      rw [List.nil_append, List.take_of_length_le hlen]
    · have htake : (ordered.take top_n).length = top_n := by
        rw [List.length_take]
        omega
      unfold mmrPhase
      conv_lhs => rw [show ordered = ordered.take top_n ++ ordered.drop top_n from
        (List.take_append_drop _ _).symm]
      rw [mmrFold_append]
      rw [mmrFold_phase1 E top_n (ordered.take top_n) [] (by rw [htake]; simp)]
      simp only [List.nil_append, Option.bind_some]
      refine mmrFold_phase2 E top_n hdiv _ _ htake hpos
        (fun s hs => hmmr s (List.take_subset _ _ hs)) ?_
      intro c hc s hs
      have hpair := hsort
      rw [show ordered = ordered.take top_n ++ ordered.drop top_n from
        (List.take_append_drop _ _).symm] at hpair
      exact (List.pairwise_append.mp hpair).2.2 s hs c hc
  · intro l
    exact List.sorted_insertionSort scoreDescRel l
  · intro E top_n persona job l hce
    simp [ceStage, hce]

def envC1 : RankEnv :=
  { cos := fun _ _ => 0, bm25 := fun _ _ => [], ce := none,
    logf := fun _ => 0, diversity := 0 }

def secC1 : Section := { title := "tiny", text := "x", page_number := 1 }

/-- Witness for C1: the diversity-0 MMR loop and the identity rerank
stage at a concrete one-candidate input. -/
theorem spec_c1_witness :
    mmrPhase envC1 1 [secC1] = some ([secC1].take 1) ∧
    ceStage envC1 1 "p" "j" [secC1] = [secC1] :=
  ⟨spec_c1.2.1 envC1 1 [secC1] rfl (List.sorted_singleton _)
    (by intro s hs; rw [List.mem_singleton.mp hs]; rfl) (Or.inl one_pos),
   spec_c1.2.2.2 envC1 1 "p" "j" [secC1] rfl⟩

lemma mmrFold_mem (E : RankEnv) (n : ℕ) (P : Section → Prop)
    (hupd : ∀ (s : Section) (v : Option ℚ), P s → P { s with mmr := v }) :
    ∀ (cs sel out : List Section), mmrFold E n sel cs = some out →
      (∀ s ∈ sel, P s) → (∀ c ∈ cs, P c) → ∀ x ∈ out, P x := by
  intro cs
  induction cs with
  | nil =>
    intro sel out h hsel _ x hx
    simp only [mmrFold, Option.some.injEq] at h
    subst h
    exact hsel x hx
  | cons c cs ih =>
    intro sel out h hsel hcs x hx
    simp only [mmrFold] at h
    cases hstep : mmrStep E n sel c with
    | none => rw [hstep] at h; exact absurd h (by simp)
    | some sel2 =>
      rw [hstep] at h
      refine ih sel2 out h ?_ (fun c' hc' => hcs c' (List.mem_cons_of_mem _ hc')) x hx
      intro s hs
      unfold mmrStep at hstep
      by_cases hlt : sel.length < n
      · rw [if_pos hlt] at hstep
        simp only [Option.some.injEq] at hstep
        subst hstep
        rcases List.mem_append.mp hs with hin | hnew
        · exact hsel s hin
        · rw [List.mem_singleton.mp hnew]
          exact hcs c (List.mem_cons_self _ _)
      · rw [if_neg hlt] at hstep
        simp only at hstep
        cases ham : argminFirst retained sel with
        | none => rw [ham] at hstep; exact absurd hstep (by simp)
        | some p =>
          obtain ⟨w, y⟩ := p
          rw [ham] at hstep
          simp only at hstep
          split_ifs at hstep with hgt
          · simp only [Option.some.injEq] at hstep
            subst hstep
            rcases List.mem_or_eq_of_mem_set hs with hin | hnew
            · exact hsel s hin
            · rw [hnew]
              exact hupd c _ (hcs c (List.mem_cons_self _ _))
          · simp only [Option.some.injEq] at hstep
            subst hstep
            exact hsel s hs

lemma snd_mem_of_mem_enumFrom :
    ∀ {l : List α} {n : ℕ} {p : ℕ × α}, p ∈ l.enumFrom n → p.2 ∈ l := by
  intro l
  induction l with
  | nil => intro n p h; simp [List.enumFrom] at h
  | cons a l ih =>
    intro n p h
    simp only [List.enumFrom] at h
    rcases List.mem_cons.mp h with rfl | h2
    · exact List.mem_cons_self _ _
    · exact List.mem_cons_of_mem _ (ih h2)

lemma scoreStage_mem {E : RankEnv} {sections : List Section} {persona job : String} :
    ∀ x ∈ scoreStage E sections persona job, ∃ s ∈ sections, ∃ v : ℚ,
      x = { s with score := some v } := by
  intro x hx
  obtain ⟨p, hp, rfl⟩ := List.mem_map.mp hx
  exact ⟨p.2, snd_mem_of_mem_enumFrom hp, _, rfl⟩

lemma ceStage_pres (E : RankEnv) (n : ℕ) (persona job : String) (l : List Section)
    (P : Section → Prop)
    (hupd : ∀ (s : Section) (v : Option ℚ), P s → P { s with ce := v })
    (h : ∀ s ∈ l, P s) :
    ∀ x ∈ ceStage E n persona job l, P x := by
  intro x hx
  rcases hc : E.ce with _ | f
  · rw [show ceStage E n persona job l = l by simp [ceStage, hc]] at hx
    exact h x hx
  · by_cases hemp : l.isEmpty
    · rw [show ceStage E n persona job l = l by simp [ceStage, hc, hemp]] at hx
      exact h x hx
    · rw [show ceStage E n persona job l =
          List.insertionSort ceDescRel
            ((l.take (min l.length (max 10 (n * 3)))).map (fun s =>
              { s with ce := some (f (persona ++ " " ++ job)
                  (s.title ++ ". " ++ normalizeText s.text)) })) ++
            l.drop (min l.length (max 10 (n * 3)))
          by simp [ceStage, hc, hemp]] at hx
      rcases List.mem_append.mp hx with hpool | hdrop
      · have hx2 := (List.perm_insertionSort ceDescRel _).mem_iff.mp hpool
        obtain ⟨s, hsmem, rfl⟩ := List.mem_map.mp hx2
        exact hupd s _ (h s (List.take_subset _ _ hsmem))
      · exact h x (List.drop_subset _ _ hdrop)

/-- C9 (amended): every section returned by `rank_sections` carries
`score` and `snippet`, and never `_mmr` (deleted before return); `_ce`
is guaranteed absent only when no cross-encoder is configured — with a
reranker present, returned pool sections keep their `_ce` key (see
`spec_c9_counterexample`). -/
theorem spec_c9 (E : RankEnv) (sections : List Section) (persona job : String)
    (top_n : ℕ) (out : List Section)
    (hex : rankSections E sections persona job top_n = some out) :
    (∀ s ∈ out, s.score.isSome ∧ s.snippet.isSome ∧ s.mmr = none) ∧
    ((E.ce = none ∧ ∀ s ∈ sections, s.ce = none) → ∀ s ∈ out, s.ce = none) := by
  unfold rankSections at hex
  cases hm : mmrPhase E top_n
      (ceStage E top_n persona job (orderStage (scoreStage E sections persona job))) with
  | none => rw [hm] at hex; exact absurd hex (by simp)
  | some sel =>
    rw [hm] at hex
    simp only [Option.some.injEq] at hex
    subst hex
    have hsel_mem : ∀ (P : Section → Prop),
        (∀ (s : Section) (v : Option ℚ), P s → P { s with mmr := v }) →
        (∀ c ∈ ceStage E top_n persona job (orderStage (scoreStage E sections persona job)),
          P c) →
        ∀ x ∈ sel, P x := by
      intro P hupd hc
      exact mmrFold_mem E top_n P hupd _ [] sel hm (by intro s hs; simp at hs) hc
    constructor
    · intro s hs
      obtain ⟨r, hr, rfl⟩ := List.mem_map.mp hs
      refine ⟨?_, by simp, by simp⟩
      have hrsel : r ∈ sel :=
        (List.perm_insertionSort retDescRel sel).mem_iff.mp (List.take_subset _ _ hr)
      have := hsel_mem (fun x => x.score.isSome = true)
        (by intro s' v hs'; simpa using hs')
        (by
          refine ceStage_pres E top_n persona job _ _ (by intro s' v hs'; simpa using hs') ?_
          intro s' hs'
          have := (List.perm_insertionSort scoreDescRel _).mem_iff.mp hs'
          obtain ⟨s0, _, v, rfl⟩ := scoreStage_mem _ this
          simp)
        r hrsel
      simpa using this
    · rintro ⟨hce, hsecs⟩ s hs
      obtain ⟨r, hr, rfl⟩ := List.mem_map.mp hs
      have hrsel : r ∈ sel :=
        (List.perm_insertionSort retDescRel sel).mem_iff.mp (List.take_subset _ _ hr)
      have := hsel_mem (fun x => x.ce = none)
        (by intro s' v hs'; simpa using hs')
        (by
          rw [show ceStage E top_n persona job
              (orderStage (scoreStage E sections persona job)) =
              orderStage (scoreStage E sections persona job) by simp [ceStage, hce]]
          intro s' hs'
          have := (List.perm_insertionSort scoreDescRel _).mem_iff.mp hs'
          obtain ⟨s0, hs0, v, rfl⟩ := scoreStage_mem _ this
          simpa using hsecs s0 hs0)
        r hrsel
      simpa using this

def envC9 : RankEnv :=
  { cos := fun _ _ => 0, bm25 := fun _ _ => [0], ce := some (fun _ _ => 1),
    logf := fun _ => 0, diversity := 0.3 }

def secC9 : Section := { title := "tiny", text := "x", page_number := 1 }

/-- The `_ce` presence pattern of the sections `rank_sections` returns
on a one-section input with a cross-encoder available. -/
def ceProbe : Option (List Bool) :=
  (rankSections envC9 [secC9] "p" "j" 1).map (fun l => l.map (fun s => s.ce.isSome))

/-- Counterexample to C9 as stated: with a cross-encoder configured,
the single returned section still carries its `_ce` annotation (the
code deletes only `_mmr`). -/
theorem spec_c9_counterexample : ceProbe = some [true] := rfl

/-- Witness for C9 (amended) at a concrete reranker-free input. -/
theorem spec_c9_witness :
    (rankSections envC1 [secC1] "p" "j" 1).isSome = true ∧
    ((rankSections envC1 [secC1] "p" "j" 1).getD []).all
      (fun s => s.score.isSome && s.snippet.isSome && decide (s.mmr = none)) = true := by
  have h := (spec_c9 envC1 [secC1] "p" "j" 1
      ((rankSections envC1 [secC1] "p" "j" 1).getD []) rfl).1
  refine ⟨rfl, ?_⟩
  rw [List.all_eq_true]
  intro s hs
  have hp := h s hs
  simp [hp.1, hp.2.1, hp.2.2]

end Adobe
